import Mathlib

/-!
Shallow embedding of the order + inventory transaction subsystem of the
back-office application (Express + sqlite3).

Sources embedded:
* `src/server/routes/products.js`  — create product, update product
* `src/server/routes/inventory.js` — adjust stock
* the orders router (`src/unnamed/part_000`) — create order, cancel order,
  read order

Modelling conventions:
* SQLite tables become Lean lists of structures; `AUTOINCREMENT` ids become
  explicit `next…Id` counters on the database state (ids start at 1).
* Money columns (`DECIMAL(10,2)` stored through JS numbers) are modelled as
  `Rat`; quantities and stock are `Int` (the schema puts no non-negativity
  constraint on `stock_quantity`, and the code can in fact drive it
  negative, so `Int` is the faithful type).
* The `express-validator` chains run before each handler; they are modelled
  as an explicit boolean validity check at the head of each operation.
* `node-sqlite3`'s `db.serialize` executes statements one at a time in FIFO
  order of scheduling; a statement scheduled inside a completion callback
  runs after every statement scheduled earlier.  The order-creation and
  order-cancellation handlers schedule their statements from nested
  callbacks, and the resulting deterministic execution order is spelled out
  in comments at the definitions below.
* `PRAGMA foreign_keys` is never enabled (see `src/server/database.js`), so
  foreign-key violations never fail an insert; inserts always succeed.
* Storage faults (a `db.run` invoking its callback with `err` set) are not
  modelled: every modelled statement succeeds.  All behaviours proved or
  refuted here are fault-free behaviours.
-/

/-- Transaction types written into `inventory_transactions.transaction_type`
by the routes: `'initial_stock' | 'sale' | 'return' | 'adjustment_in' |
'adjustment_out'`.  (`return` is a Lean keyword, hence `ret`.) -/
inductive TxnType where
  | initial_stock
  | sale
  | ret
  | adjustment_in
  | adjustment_out
deriving Repr, DecidableEq

/-- A row of the `products` table (columns relevant to the subsystem;
`description`, `image_url`, timestamps are omitted as they are never read
by the embedded logic). -/
structure Product where
  id : Nat
  name : String
  sku : String
  category_id : Option Nat
  price : Rat
  cost : Option Rat
  stock_quantity : Int
  min_stock_level : Int
  status : String
deriving Repr, DecidableEq

/-- A row of the `orders` table. -/
structure Order where
  id : Nat
  customer_id : Nat
  order_number : String
  status : String
  total_amount : Rat
  tax_amount : Rat
  discount_amount : Rat
  payment_method : String
  payment_status : String
  notes : String
deriving Repr, DecidableEq

/-- A row of the `order_items` table. -/
structure OrderItem where
  id : Nat
  order_id : Nat
  product_id : Nat
  quantity : Int
  unit_price : Rat
  total_price : Rat
deriving Repr, DecidableEq

/-- A row of the `inventory_transactions` table (the stock ledger). -/
structure InvTxn where
  id : Nat
  product_id : Nat
  transaction_type : TxnType
  quantity : Int
  reference_id : Option Nat
  reference_type : Option String
  notes : String
deriving Repr, DecidableEq

/-- The database state: the four tables the subsystem touches, plus the
`AUTOINCREMENT` counters of those tables. -/
structure DB where
  products : List Product
  orders : List Order
  order_items : List OrderItem
  inventory_transactions : List InvTxn
  nextProductId : Nat
  nextOrderId : Nat
  nextItemId : Nat
  nextTxnId : Nat
deriving Repr, DecidableEq

/-- The empty database (fresh `AUTOINCREMENT` counters start at 1). -/
def emptyDB : DB :=
  { products := [], orders := [], order_items := [], inventory_transactions := []
    nextProductId := 1, nextOrderId := 1, nextItemId := 1, nextTxnId := 1 }

/-- Typed failures surfaced by the embedded routes (HTTP 400/404 bodies). -/
inductive ApiError where
  | validationFailed
  | skuExists
  | productNotFound (product_id : Nat)
  | insufficientStock (product_id : Nat)
  | orderNotFound
  | noUpdates
deriving Repr, DecidableEq

/-- `SELECT … FROM products WHERE id = ?` (`db.get`: first matching row). -/
def findProduct (db : DB) (product_id : Nat) : Option Product :=
  db.products.find? (fun p => p.id == product_id)

/-- `SELECT … FROM orders WHERE id = ?`. -/
def findOrder (db : DB) (order_id : Nat) : Option Order :=
  db.orders.find? (fun o => o.id == order_id)

/-! ### Create product — products.js `router.post('/')` -/

/-- Request body of `POST /api/products` after JS destructuring (defaults
`min_stock_level = 10`, `status = 'active'` applied by the caller of the
model, exactly as the destructuring applies them). -/
structure ProductReq where
  name : String
  sku : String
  category_id : Option Nat
  price : Rat
  cost : Option Rat
  stock_quantity : Int
  min_stock_level : Int
  status : String
deriving Repr, DecidableEq

/-- The validator chain of `POST /api/products`: `name` notEmpty, `sku`
notEmpty, `price` isFloat min 0, `stock_quantity` isInt min 0. -/
def validProductReq (req : ProductReq) : Bool :=
  !(req.name == "") && !(req.sku == "") && decide (0 ≤ req.price)
    && decide (0 ≤ req.stock_quantity)

/-- `POST /api/products`: validation; SKU-uniqueness check; `INSERT INTO
products …`; then one `INSERT INTO inventory_transactions` of type
`'initial_stock'` with the submitted `stock_quantity` and notes
`'Initial stock entry'`.  Returns the new product id. -/
def createProduct (db : DB) (req : ProductReq) : DB × Except ApiError Nat :=
  if !(validProductReq req) then (db, .error .validationFailed)
  else if db.products.any (fun p => p.sku == req.sku) then (db, .error .skuExists)
  else
    let pid := db.nextProductId
    let p : Product :=
      { id := pid, name := req.name, sku := req.sku, category_id := req.category_id
        price := req.price, cost := req.cost, stock_quantity := req.stock_quantity
        min_stock_level := req.min_stock_level, status := req.status }
    let t : InvTxn :=
      { id := db.nextTxnId, product_id := pid, transaction_type := .initial_stock
        quantity := req.stock_quantity, reference_id := none, reference_type := none
        notes := "Initial stock entry" }
    ({ db with
        products := db.products ++ [p]
        nextProductId := pid + 1
        inventory_transactions := db.inventory_transactions ++ [t]
        nextTxnId := db.nextTxnId + 1 }, .ok pid)

/-! ### Update product — products.js `router.put('/:id')` -/

/-- Request body of `PUT /api/products/:id`: every allowed field optional. -/
structure ProductUpdate where
  name : Option String
  sku : Option String
  category_id : Option Nat
  price : Option Rat
  cost : Option Rat
  stock_quantity : Option Int
  min_stock_level : Option Int
  status : Option String
deriving Repr, DecidableEq

/-- Validator chain of `PUT /api/products/:id`: optional `name` notEmpty,
optional `price` isFloat min 0, optional `stock_quantity` isInt min 0. -/
def validProductUpdate (u : ProductUpdate) : Bool :=
  (match u.name with | some n => !(n == "") | none => true)
    && (match u.price with | some pr => decide (0 ≤ pr) | none => true)
    && (match u.stock_quantity with | some s => decide (0 ≤ s) | none => true)

/-- Whether any allowed field is present (`updates.length === 0` check). -/
def hasUpdates (u : ProductUpdate) : Bool :=
  u.name.isSome || u.sku.isSome || u.category_id.isSome || u.price.isSome
    || u.cost.isSome || u.stock_quantity.isSome || u.min_stock_level.isSome
    || u.status.isSome

/-- Effect of the dynamic `UPDATE products SET field = ?, …` on one row. -/
def applyUpdates (p : Product) (u : ProductUpdate) : Product :=
  { p with
      name := u.name.getD p.name
      sku := u.sku.getD p.sku
      category_id := (u.category_id.map some).getD p.category_id
      price := u.price.getD p.price
      cost := (u.cost.map some).getD p.cost
      stock_quantity := u.stock_quantity.getD p.stock_quantity
      min_stock_level := u.min_stock_level.getD p.min_stock_level
      status := u.status.getD p.status }

/-- `PUT /api/products/:id`: validation; read the current row (404 if
absent); reject if no updates; `UPDATE products …`; then, only if the body
carried a `stock_quantity` different from the current one, one ledger
append of type `'adjustment_in'` (difference > 0) or `'adjustment_out'`
with `Math.abs(difference)` and notes `'Manual stock adjustment'`.  The
route opens no transaction; in this fault-free model the update and the
conditional append simply both happen. -/
def updateProduct (db : DB) (product_id : Nat) (u : ProductUpdate) :
    DB × Except ApiError Unit :=
  if !(validProductUpdate u) then (db, .error .validationFailed)
  else
    match findProduct db product_id with
    | none => (db, .error (.productNotFound product_id))
    | some current =>
      if !(hasUpdates u) then (db, .error .noUpdates)
      else
        let db1 := { db with
          products := db.products.map
            (fun p => if p.id = product_id then applyUpdates p u else p) }
        match u.stock_quantity with
        | some s =>
          if s ≠ current.stock_quantity then
            let difference := s - current.stock_quantity
            let transactionType : TxnType :=
              if 0 < difference then .adjustment_in else .adjustment_out
            let t : InvTxn :=
              { id := db1.nextTxnId, product_id := product_id
                transaction_type := transactionType, quantity := |difference|
                reference_id := none, reference_type := none
                notes := "Manual stock adjustment" }
            ({ db1 with
                inventory_transactions := db1.inventory_transactions ++ [t]
                nextTxnId := db1.nextTxnId + 1 }, .ok ())
          else (db1, .ok ())
        | none => (db1, .ok ())

/-! ### Adjust stock — inventory.js `router.post('/adjust')` -/

/-- `POST /api/inventory/adjust`: validation (`type` must be
`adjustment_in` or `adjustment_out`, `quantity` any integer); inside a
transaction: read the product (404 if absent); compute
`adjustmentQuantity = type === 'adjustment_in' ? Math.abs(q) : -Math.abs(q)`;
reject with insufficient-stock if the resulting stock would be negative;
otherwise `UPDATE products SET stock_quantity = newStock` plus one ledger
append of the given type with `Math.abs(quantity)`; commit.  Returns the
new stock. -/
def adjustStock (db : DB) (product_id : Nat) (quantity : Int) (ty : TxnType) :
    DB × Except ApiError Int :=
  if !(ty == TxnType.adjustment_in || ty == TxnType.adjustment_out) then
    (db, .error .validationFailed)
  else
    let adjustmentQuantity := if ty = .adjustment_in then |quantity| else -|quantity|
    match findProduct db product_id with
    | none => (db, .error (.productNotFound product_id))
    | some product =>
      let newStock := product.stock_quantity + adjustmentQuantity
      if newStock < 0 then (db, .error (.insufficientStock product_id))
      else
        let t : InvTxn :=
          { id := db.nextTxnId, product_id := product_id, transaction_type := ty
            quantity := |quantity|, reference_id := none, reference_type := none
            notes := "" }
        ({ db with
            products := db.products.map
              (fun p => if p.id = product_id then { p with stock_quantity := newStock } else p)
            inventory_transactions := db.inventory_transactions ++ [t]
            nextTxnId := db.nextTxnId + 1 }, .ok newStock)

/-! ### Create order — orders router `router.post('/')`

The handler runs under `db.serialize()`.  Statement scheduling is FIFO:
`BEGIN` and the order `INSERT` are scheduled first; the order-insert
callback schedules the per-item stock `SELECT`s for every item (the
`forEach` is synchronous); each `SELECT`'s callback then schedules either
that item's `order_items` `INSERT` (stock sufficient) or — for the first
failing item only, guarded by `hasError` — a `ROLLBACK`; each `INSERT`'s
callback schedules the relative stock `UPDATE`; each `UPDATE`'s callback
schedules the `sale` ledger `INSERT` and, when `itemsProcessed` reaches
`items.length` with no error, the `COMMIT`.

Consequences of that order, mirrored by the definition below:
* every per-item stock check reads the stock as it was before any of this
  order's decrements (all `SELECT`s execute before the first `UPDATE`);
* when some item fails, the `ROLLBACK` executes after the `order_items`
  inserts of the passing items that precede the failing one (those inserts
  are undone with the order row), but the passing items scheduled after
  the failing one are inserted after the rollback, and every passing
  item's stock `UPDATE` and ledger `INSERT` also execute after the
  rollback — in autocommit mode, so they persist;
* `itemsProcessed` never reaches `items.length` after a failure, so no
  `COMMIT` is issued, and the response is the first failing item's error.
-/

/-- One element of the `items` array of `POST /api/orders`.  `unit_price`
is optional and unvalidated (the handler evaluates
`item.unit_price || product.price`, so an absent — or zero, since `0` is
falsy — unit price falls back to the product's current price). -/
structure ItemReq where
  product_id : Nat
  quantity : Int
  unit_price : Option Rat
deriving Repr, DecidableEq

/-- Request body of `POST /api/orders` after destructuring (defaults
`tax_amount = 0`, `discount_amount = 0`, `payment_method = 'cash'`,
`payment_status = 'pending'`, `notes = ''` applied by the caller). -/
structure OrderReq where
  customer_id : Nat
  items : List ItemReq
  total_amount : Rat
  tax_amount : Rat
  discount_amount : Rat
  payment_method : String
  payment_status : String
  notes : String
deriving Repr, DecidableEq

/-- Validator chain of `POST /api/orders`: `customer_id` isInt, `items`
isArray min 1, each `items.*.product_id` isInt, each `items.*.quantity`
isInt min 1, `total_amount` isFloat min 0. -/
def validOrderReq (req : OrderReq) : Bool :=
  !(req.items.isEmpty) && req.items.all (fun it => decide (1 ≤ it.quantity))
    && decide (0 ≤ req.total_amount)

/-- `item.unit_price || product.price` (JS truthiness: `0` falls back). -/
def effectiveUnitPrice (it : ItemReq) (product : Product) : Rat :=
  match it.unit_price with
  | none => product.price
  | some up => if up = 0 then product.price else up

/-- The per-item stock `SELECT` and its callback's checks: product missing
→ 400 product-not-found; `product.stock_quantity < item.quantity` → 400
insufficient-stock; otherwise the item passes with its effective unit
price. -/
def checkItem (db : DB) (it : ItemReq) : Except ApiError Rat :=
  match findProduct db it.product_id with
  | none => .error (.productNotFound it.product_id)
  | some product =>
    if product.stock_quantity < it.quantity then .error (.insufficientStock it.product_id)
    else .ok (effectiveUnitPrice it product)

/-- First error among the check results, in item order (the first failing
`SELECT` callback is the one that sets `hasError` and answers). -/
def firstErr? : List (ItemReq × Except ApiError Rat) → Option ApiError
  | [] => none
  | (_, .error e) :: _ => some e
  | (_, .ok _) :: rest => firstErr? rest

/-- All passing items with their effective unit prices, in item order. -/
def passedOf : List (ItemReq × Except ApiError Rat) → List (ItemReq × Rat)
  | [] => []
  | (it, .ok up) :: rest => (it, up) :: passedOf rest
  | (_, .error _) :: rest => passedOf rest

/-- The passing items strictly after the first failing item (their
`order_items` inserts are scheduled after the `ROLLBACK`). -/
def passedAfterErr : List (ItemReq × Except ApiError Rat) → List (ItemReq × Rat)
  | [] => []
  | (_, .ok _) :: rest => passedAfterErr rest
  | (_, .error _) :: rest => passedOf rest

/-- The `order_items` insert phase: one
`INSERT INTO order_items (order_id, product_id, quantity, unit_price,
total_price)` per passing item, `total_price = unit_price * quantity`. -/
def insertItems (db : DB) (orderId : Nat) : List (ItemReq × Rat) → DB
  | [] => db
  | (it, up) :: rest =>
    insertItems
      { db with
          order_items := db.order_items ++
            [{ id := db.nextItemId, order_id := orderId, product_id := it.product_id
               quantity := it.quantity, unit_price := up
               total_price := up * it.quantity }]
          nextItemId := db.nextItemId + 1 }
      orderId rest

/-- The stock-update phase: one relative
`UPDATE products SET stock_quantity = stock_quantity - ? WHERE id = ?`
per passing item. -/
def applyStockDecs (ps : List Product) : List (ItemReq × Rat) → List Product
  | [] => ps
  | (it, _) :: rest =>
    applyStockDecs
      (ps.map (fun p =>
        if p.id = it.product_id then
          { p with stock_quantity := p.stock_quantity - it.quantity }
        else p))
      rest

/-- The ledger phase: one
`INSERT INTO inventory_transactions (product_id, 'sale', -quantity,
orderId, 'order', …)` per passing item. -/
def appendSales (db : DB) (orderId : Nat) (orderNumber : String) :
    List (ItemReq × Rat) → DB
  | [] => db
  | (it, _) :: rest =>
    appendSales
      { db with
          inventory_transactions := db.inventory_transactions ++
            [{ id := db.nextTxnId, product_id := it.product_id
               transaction_type := .sale, quantity := -it.quantity
               reference_id := some orderId, reference_type := some "order"
               notes := "Order " ++ orderNumber }]
          nextTxnId := db.nextTxnId + 1 }
      orderId orderNumber rest

/-- The order-header `INSERT` (status takes the schema default
`'pending'`). -/
def mkOrder (orderId : Nat) (orderNumber : String) (req : OrderReq) : Order :=
  { id := orderId, customer_id := req.customer_id, order_number := orderNumber
    status := "pending", total_amount := req.total_amount
    tax_amount := req.tax_amount, discount_amount := req.discount_amount
    payment_method := req.payment_method, payment_status := req.payment_status
    notes := req.notes }

/-- `POST /api/orders`.  `orderNumber` stands for the value of
`generateOrderNumber()` (timestamp + randomness, supplied externally).
Success: the whole transaction commits and the new order id is returned.
Failure of some item: the transaction (order row and the pre-failure item
inserts) is rolled back to the pre-transaction state `db`, after which the
post-failure passing items' inserts and every passing item's stock update
and ledger append still execute in autocommit mode, as derived in the
scheduling comment above. -/
def createOrder (db : DB) (orderNumber : String) (req : OrderReq) :
    DB × Except ApiError Nat :=
  if !(validOrderReq req) then (db, .error .validationFailed)
  else
    let orderId := db.nextOrderId
    let db1 := { db with
      orders := db.orders ++ [mkOrder orderId orderNumber req]
      nextOrderId := orderId + 1 }
    let checks := req.items.map (fun it => (it, checkItem db1 it))
    match firstErr? checks with
    | none =>
      let db2 := insertItems db1 orderId (passedOf checks)
      let db3 := { db2 with products := applyStockDecs db2.products (passedOf checks) }
      let db4 := appendSales db3 orderId orderNumber (passedOf checks)
      (db4, .ok orderId)
    | some e =>
      let dbA := insertItems db orderId (passedAfterErr checks)
      let dbB := { dbA with products := applyStockDecs dbA.products (passedOf checks) }
      let dbC := appendSales dbB orderId orderNumber (passedOf checks)
      (dbC, .error e)

/-! ### Cancel order — orders router `router.delete('/:id')`

Under `db.serialize()`: `BEGIN`; `SELECT product_id, quantity FROM
order_items WHERE order_id = ?`; its callback schedules one relative stock
`UPDATE` per item; each update's callback schedules the `'return'` ledger
`INSERT`, and the last one also schedules the status `UPDATE` followed (in
its own callback) by `COMMIT`.  With no items, only the status update and
commit run.  The handler never checks whether the order exists (the status
`UPDATE`'s `this.changes` is not inspected), so a missing order still
yields the success response. -/

/-- Stock-restoration phase of cancellation: one
`UPDATE products SET stock_quantity = stock_quantity + ? WHERE id = ?`
per line item. -/
def applyStockIncs (ps : List Product) : List OrderItem → List Product
  | [] => ps
  | oi :: rest =>
    applyStockIncs
      (ps.map (fun p =>
        if p.id = oi.product_id then
          { p with stock_quantity := p.stock_quantity + oi.quantity }
        else p))
      rest

/-- Ledger phase of cancellation: one
`INSERT INTO inventory_transactions (product_id, 'return', quantity,
orderId, 'order_cancellation', …)` per line item. -/
def appendReturns (db : DB) (orderId : Nat) : List OrderItem → DB
  | [] => db
  | oi :: rest =>
    appendReturns
      { db with
          inventory_transactions := db.inventory_transactions ++
            [{ id := db.nextTxnId, product_id := oi.product_id
               transaction_type := .ret, quantity := oi.quantity
               reference_id := some orderId
               reference_type := some "order_cancellation"
               notes := "Order " ++ toString orderId ++ " cancelled" }]
          nextTxnId := db.nextTxnId + 1 }
      orderId rest

/-- `DELETE /api/orders/:id` (fault-free, so the transaction always
commits).  Always answers the success message; never order-not-found. -/
def cancelOrder (db : DB) (orderId : Nat) : DB × Except ApiError Unit :=
  let items := db.order_items.filter (fun oi => oi.order_id == orderId)
  let db1 := { db with products := applyStockIncs db.products items }
  let db2 := appendReturns db1 orderId items
  let db3 := { db2 with
    orders := db2.orders.map
      (fun o => if o.id = orderId then { o with status := "cancelled" } else o) }
  (db3, .ok ())

/-! ### Read order — orders router `router.get('/:id')` -/

/-- `GET /api/orders/:id`: the order row (404 if absent) together with its
line items; the items query `JOIN products` on `oi.product_id = p.id`, so
an item whose product row is gone is dropped. -/
def readOrder (db : DB) (orderId : Nat) : Except ApiError (Order × List OrderItem) :=
  match findOrder db orderId with
  | none => .error .orderNotFound
  | some o =>
    .ok (o, (db.order_items.filter (fun oi => oi.order_id == orderId)).filter
      (fun oi => (findProduct db oi.product_id).isSome))

/-! ### Operation sequences -/

/-- One state-changing operation of the subsystem, as enumerated by claim
C1: product creation, order creation, order cancellation, stock
adjustment, direct product edit. -/
inductive Op where
  | opCreateProduct (req : ProductReq)
  | opCreateOrder (orderNumber : String) (req : OrderReq)
  | opCancelOrder (orderId : Nat)
  | opAdjustStock (product_id : Nat) (quantity : Int) (ty : TxnType)
  | opUpdateProduct (product_id : Nat) (u : ProductUpdate)
deriving Repr

/-- State reached after one operation (the HTTP response is dropped). -/
def applyOp (db : DB) : Op → DB
  | .opCreateProduct req => (createProduct db req).1
  | .opCreateOrder orderNumber req => (createOrder db orderNumber req).1
  | .opCancelOrder orderId => (cancelOrder db orderId).1
  | .opAdjustStock product_id quantity ty => (adjustStock db product_id quantity ty).1
  | .opUpdateProduct product_id u => (updateProduct db product_id u).1

/-- State after a sequence of operations from the empty database. -/
def run (ops : List Op) : DB := ops.foldl applyOp emptyDB

/-! ### Ledger reconciliation quantities -/

/-- The signed stock movement recorded by one ledger row.  Every route
stores the signed value directly in the `quantity` column (`sale` rows are
written with `-quantity`, `return` and `adjustment_in` and `initial_stock`
rows with the positive amount) except the two `adjustment_out` writers
(inventory adjust and direct product edit), which store
`Math.abs(quantity)`; their stock effect is the negation of the stored
value. -/
def signedQty (t : InvTxn) : Int :=
  match t.transaction_type with
  | .adjustment_out => -t.quantity
  | _ => t.quantity

/-- Signed sum of all ledger rows of one product. -/
def ledgerSum : List InvTxn → Nat → Int
  | [], _ => 0
  | t :: ts, pid => (if t.product_id = pid then signedQty t else 0) + ledgerSum ts pid

/-- Signed sum of the `initial_stock` ledger rows of one product (its
initial stock, as recorded at creation). -/
def initialStockOf : List InvTxn → Nat → Int
  | [], _ => 0
  | t :: ts, pid =>
    (if t.product_id = pid ∧ t.transaction_type = .initial_stock then signedQty t else 0)
      + initialStockOf ts pid

/-- Signed sum of the non-`initial_stock` ledger rows of one product. -/
def movementSum : List InvTxn → Nat → Int
  | [], _ => 0
  | t :: ts, pid =>
    (if t.product_id = pid ∧ t.transaction_type ≠ .initial_stock then signedQty t else 0)
      + movementSum ts pid

/-- Total quantity requested for one product across passing items. -/
def totalQty : List (ItemReq × Rat) → Nat → Int
  | [], _ => 0
  | (it, _) :: rest, pid =>
    (if it.product_id = pid then it.quantity else 0) + totalQty rest pid

/-- Total quantity of a product across a list of order items. -/
def totalQtyItems : List OrderItem → Nat → Int
  | [], _ => 0
  | oi :: rest, pid =>
    (if oi.product_id = pid then oi.quantity else 0) + totalQtyItems rest pid

/-- Total quantity requested for one product across the raw request items. -/
def totalQtyReq : List ItemReq → Nat → Int
  | [], _ => 0
  | it :: rest, pid =>
    (if it.product_id = pid then it.quantity else 0) + totalQtyReq rest pid

/-- Value of an `ok` check result (`0` placeholder on `error`). -/
def okValue : Except ApiError Rat → Rat
  | .ok v => v
  | .error _ => 0

/-- The per-item check results of one create-order request, in item order.
`checkItem` only reads the `products` table, and the order-header insert
leaves `products` untouched, so checking against the pre-insert state is
the same as the source's check against the in-transaction state. -/
def orderChecks (db : DB) (req : OrderReq) : List (ItemReq × Except ApiError Rat) :=
  req.items.map (fun it => (it, checkItem db it))

/-- The `order_items` rows produced by the insert phase, given the first
fresh `order_items` id. -/
def mkItemRows (orderId : Nat) (nextItemId : Nat) : List (ItemReq × Rat) → List OrderItem
  | [] => []
  | (it, up) :: rest =>
    { id := nextItemId, order_id := orderId, product_id := it.product_id
      quantity := it.quantity, unit_price := up, total_price := up * it.quantity }
      :: mkItemRows orderId (nextItemId + 1) rest

/-- The `sale` ledger rows produced by the ledger phase of order
creation, given the first fresh ledger id. -/
def mkSaleRows (orderId : Nat) (orderNumber : String) (nextTxnId : Nat) :
    List (ItemReq × Rat) → List InvTxn
  | [] => []
  | (it, _) :: rest =>
    { id := nextTxnId, product_id := it.product_id, transaction_type := .sale
      quantity := -it.quantity, reference_id := some orderId
      reference_type := some "order", notes := "Order " ++ orderNumber }
      :: mkSaleRows orderId orderNumber (nextTxnId + 1) rest

/-- The `return` ledger rows produced by order cancellation, given the
first fresh ledger id. -/
def mkReturnRows (orderId : Nat) (nextTxnId : Nat) : List OrderItem → List InvTxn
  | [] => []
  | oi :: rest =>
    { id := nextTxnId, product_id := oi.product_id, transaction_type := .ret
      quantity := oi.quantity, reference_id := some orderId
      reference_type := some "order_cancellation"
      notes := "Order " ++ toString orderId ++ " cancelled" }
      :: mkReturnRows orderId (nextTxnId + 1) rest

/-- The line items of one order (`WHERE order_id = ?`). -/
def itemsOf (db : DB) (orderId : Nat) : List OrderItem :=
  db.order_items.filter (fun oi => oi.order_id == orderId)

/-- Sum of the `total_price` column over a list of order items. -/
def sumTotalPrice : List OrderItem → Rat
  | [] => 0
  | oi :: rest => oi.total_price + sumTotalPrice rest

/-- Sum of `unit_price * quantity` over passing items. -/
def sumLineTotals : List (ItemReq × Rat) → Rat
  | [] => 0
  | (it, up) :: rest => up * it.quantity + sumLineTotals rest

/-- Decidable equality for `Except` results (used to evaluate the model at
concrete inputs). -/
instance {ε α : Type} [DecidableEq ε] [DecidableEq α] : DecidableEq (Except ε α) := fun x y =>
  match x, y with
  | .ok a, .ok b =>
    if h : a = b then isTrue (by rw [h])
    else isFalse (fun hc => by injection hc; contradiction)
  | .error a, .error b =>
    if h : a = b then isTrue (by rw [h])
    else isFalse (fun hc => by injection hc; contradiction)
  | .ok _, .error _ => isFalse (fun hc => Except.noConfusion hc)
  | .error _, .ok _ => isFalse (fun hc => Except.noConfusion hc)

/-! ### Concrete example data (used by witnesses and counterexamples) -/

/-- A product-creation request with the given SKU, price and stock. -/
def mkProductReq (name sku : String) (price : Rat) (stock : Int) : ProductReq :=
  { name := name, sku := sku, category_id := none, price := price, cost := none
    stock_quantity := stock, min_stock_level := 10, status := "active" }

/-- An order-creation request with the given items and totals. -/
def mkOrderReq (cid : Nat) (items : List ItemReq) (total tax disc : Rat) : OrderReq :=
  { customer_id := cid, items := items, total_amount := total, tax_amount := tax
    discount_amount := disc, payment_method := "cash", payment_status := "pending"
    notes := "" }

/-- A product update that only sets `stock_quantity`. -/
def stockOnlyUpdate (s : Int) : ProductUpdate :=
  { name := none, sku := none, category_id := none, price := none, cost := none
    stock_quantity := some s, min_stock_level := none, status := none }

/-- A database with one product: id 1, price 10, stock 5. -/
def exDb5 : DB := (createProduct emptyDB (mkProductReq "P" "SKU-P" 10 5)).1

/-- The product row stored in `exDb5`. -/
def exProd5 : Product :=
  { id := 1, name := "P", sku := "SKU-P", category_id := none, price := 10
    cost := none, stock_quantity := 5, min_stock_level := 10, status := "active" }

/-- A database with product A (id 1, price 10, stock 10) and product B
(id 2, price 5, stock 5). -/
def exDbAB : DB :=
  (createProduct (createProduct emptyDB (mkProductReq "A" "SKU-A" 10 10)).1
    (mkProductReq "B" "SKU-B" 5 5)).1

/-- Two line items for the same product 1 (qty 3 each) against stock 5:
each line passes the per-line check but the total 6 exceeds the stock. -/
def exReqC2 : OrderReq :=
  mkOrderReq 1 [{ product_id := 1, quantity := 3, unit_price := some 10 },
    { product_id := 1, quantity := 3, unit_price := some 10 }] 60 0 0

/-- The order of claim C3: (A, qty 2, price 10.00), (B, qty 1, price 5.00),
total 25.00. -/
def exReqC3 : OrderReq :=
  mkOrderReq 1 [{ product_id := 1, quantity := 2, unit_price := some 10 },
    { product_id := 2, quantity := 1, unit_price := some 5 }] 25 0 0

/-- A database holding `exDbAB` plus one created order (id 1, product 1,
qty 2). -/
def exDbOrder : DB :=
  (createOrder exDbAB "ORD-C4"
    (mkOrderReq 1 [{ product_id := 1, quantity := 2, unit_price := some 10 }] 20 0 0)).1

/-- An order whose submitted `total_amount` (999) disagrees with its line
totals (one line of 10). -/
def exReqC8 : OrderReq :=
  mkOrderReq 1 [{ product_id := 1, quantity := 1, unit_price := some 10 }] 999 0 0

/-- A database with one product: id 1, price 7, stock 10. -/
def exDb7 : DB := (createProduct emptyDB (mkProductReq "Z" "SKU-Z" 7 10)).1

/-- An order submitting an explicit `unit_price` of 0 (falsy in JS). -/
def exReqC9 : OrderReq :=
  mkOrderReq 1 [{ product_id := 1, quantity := 1, unit_price := some 0 }] 0 0 0

/-- A well-priced order on `exDb7` used by the amended C9 witness. -/
def exReqC9b : OrderReq :=
  mkOrderReq 1 [{ product_id := 1, quantity := 2, unit_price := some 9 }] 18 0 0

/-- An operation sequence exercising every ledger-touching path: create a
product, sell from it, adjust it, edit it directly, cancel the order. -/
def exOpsC1 : List Op :=
  [Op.opCreateProduct (mkProductReq "P" "SKU-P" 10 5),
   Op.opCreateOrder "ORD-C1"
     (mkOrderReq 1 [{ product_id := 1, quantity := 2, unit_price := some 10 }] 20 0 0),
   Op.opAdjustStock 1 4 TxnType.adjustment_out,
   Op.opUpdateProduct 1 (stockOnlyUpdate 7),
   Op.opCancelOrder 1]

/-- The stock-reconciliation relation between a products table and a
ledger: every product row's counter equals the signed sum of its ledger
rows. -/
def SLI (ps : List Product) (ts : List InvTxn) : Prop :=
  ∀ p ∈ ps, p.stock_quantity = ledgerSum ts p.id

/-- Product ids referenced anywhere are below the next fresh product id,
so a newly created product starts with an empty ledger history. -/
def PidBound (db : DB) : Prop :=
  (∀ p ∈ db.products, p.id < db.nextProductId)
    ∧ (∀ t ∈ db.inventory_transactions, t.product_id < db.nextProductId)
    ∧ (∀ oi ∈ db.order_items, oi.product_id < db.nextProductId)

/-- The full reconciliation invariant carried through every operation. -/
def ReconInv (db : DB) : Prop :=
  SLI db.products db.inventory_transactions ∧ PidBound db

/-! ### Helper lemmas -/

theorem ledgerSum_append (xs ys : List InvTxn) (pid : Nat) :
    ledgerSum (xs ++ ys) pid = ledgerSum xs pid + ledgerSum ys pid := by
  induction xs with
  | nil => simp [ledgerSum]
  | cons t ts ih => simp [ledgerSum, ih]; ring

theorem ledgerSum_eq_initial_add_movement (ts : List InvTxn) (pid : Nat) :
    ledgerSum ts pid = initialStockOf ts pid + movementSum ts pid := by
  induction ts with
  | nil => simp [ledgerSum, initialStockOf, movementSum]
  | cons t ts ih =>
    simp only [ledgerSum, initialStockOf, movementSum, ih]
    by_cases hp : t.product_id = pid
    · by_cases hi : t.transaction_type = .initial_stock <;> simp [hp, hi] <;> ring
    · simp [hp]

theorem ledgerSum_eq_zero_of_not_mem (ts : List InvTxn) (pid : Nat)
    (h : ∀ t ∈ ts, t.product_id ≠ pid) : ledgerSum ts pid = 0 := by
  induction ts with
  | nil => rfl
  | cons t ts ih =>
    have ht := h t (List.mem_cons_self t ts)
    simp [ledgerSum, ht, ih fun x hx => h x (List.mem_cons_of_mem t hx)]

theorem checkItem_products_only (db db' : DB) (it : ItemReq)
    (h : db'.products = db.products) : checkItem db' it = checkItem db it := by
  simp [checkItem, findProduct, h]

theorem insertItems_spec (oid : Nat) (l : List (ItemReq × Rat)) :
    ∀ db : DB, insertItems db oid l =
      { db with order_items := db.order_items ++ mkItemRows oid db.nextItemId l
                nextItemId := db.nextItemId + l.length } := by
  induction l with
  | nil => intro db; simp [insertItems, mkItemRows]
  | cons x rest ih =>
    intro db
    obtain ⟨it, up⟩ := x
    rw [insertItems, ih]
    simp [mkItemRows, List.append_assoc]
    omega

theorem appendSales_spec (oid : Nat) (onum : String) (l : List (ItemReq × Rat)) :
    ∀ db : DB, appendSales db oid onum l =
      { db with
          inventory_transactions :=
            db.inventory_transactions ++ mkSaleRows oid onum db.nextTxnId l
          nextTxnId := db.nextTxnId + l.length } := by
  induction l with
  | nil => intro db; simp [appendSales, mkSaleRows]
  | cons x rest ih =>
    intro db
    obtain ⟨it, up⟩ := x
    rw [appendSales, ih]
    simp [mkSaleRows, List.append_assoc]
    omega

theorem appendReturns_spec (oid : Nat) (l : List OrderItem) :
    ∀ db : DB, appendReturns db oid l =
      { db with
          inventory_transactions :=
            db.inventory_transactions ++ mkReturnRows oid db.nextTxnId l
          nextTxnId := db.nextTxnId + l.length } := by
  induction l with
  | nil => intro db; simp [appendReturns, mkReturnRows]
  | cons oi rest ih =>
    intro db
    rw [appendReturns, ih]
    simp [mkReturnRows, List.append_assoc]
    omega

theorem applyStockDecs_eq (l : List (ItemReq × Rat)) :
    ∀ ps : List Product, applyStockDecs ps l =
      ps.map (fun p => { p with stock_quantity := p.stock_quantity - totalQty l p.id }) := by
  induction l with
  | nil =>
    intro ps
    have hpt : ∀ p : Product,
        ({ p with stock_quantity :=
            p.stock_quantity - totalQty ([] : List (ItemReq × Rat)) p.id }) = p := by
      intro p; cases p; simp only [totalQty, sub_zero]
    exact ((List.map_congr_left fun p _ => hpt p).trans (List.map_id ps)).symm
  | cons x rest ih =>
    intro ps
    obtain ⟨it, up⟩ := x
    rw [applyStockDecs, ih, List.map_map]
    refine List.map_congr_left fun p _ => ?_
    by_cases h : p.id = it.product_id
    · have h' : it.product_id = p.id := h.symm
      simp only [Function.comp, totalQty, if_pos h, if_pos h']
      simp [sub_sub]
    · have h' : ¬ it.product_id = p.id := fun hh => h hh.symm
      simp only [Function.comp, totalQty, if_neg h, if_neg h']
      simp

theorem applyStockIncs_eq (l : List OrderItem) :
    ∀ ps : List Product, applyStockIncs ps l =
      ps.map (fun p => { p with stock_quantity := p.stock_quantity + totalQtyItems l p.id }) := by
  induction l with
  | nil =>
    intro ps
    have hpt : ∀ p : Product,
        ({ p with stock_quantity :=
            p.stock_quantity + totalQtyItems ([] : List OrderItem) p.id }) = p := by
      intro p; cases p; simp only [totalQtyItems, add_zero]
    exact ((List.map_congr_left fun p _ => hpt p).trans (List.map_id ps)).symm
  | cons oi rest ih =>
    intro ps
    rw [applyStockIncs, ih, List.map_map]
    refine List.map_congr_left fun p _ => ?_
    by_cases h : p.id = oi.product_id
    · have h' : oi.product_id = p.id := h.symm
      simp only [Function.comp, totalQtyItems, if_pos h, if_pos h']
      simp [add_assoc]
    · have h' : ¬ oi.product_id = p.id := fun hh => h hh.symm
      simp only [Function.comp, totalQtyItems, if_neg h, if_neg h']
      simp

theorem find?_map_id_preserving (ps : List Product) (f : Product → Product)
    (hf : ∀ p, (f p).id = p.id) (pid : Nat) :
    (ps.map f).find? (fun p => p.id == pid) =
      (ps.find? (fun p => p.id == pid)).map f := by
  induction ps with
  | nil => rfl
  | cons p rest ih =>
    by_cases h : p.id = pid
    · have : ((f p).id == pid) = true := by simp [hf, h]
      simp [List.find?, this, h]
    · have h1 : ((f p).id == pid) = false := by simp [hf, h]
      have h2 : (p.id == pid) = false := by simp [h]
      simp [List.find?, h1, h2, ih]

theorem findProduct_eq_id (db : DB) (pid : Nat) (p : Product)
    (h : findProduct db pid = some p) : p.id = pid := by
  have := List.find?_some h
  simpa using this

theorem findProduct_mem (db : DB) (pid : Nat) (p : Product)
    (h : findProduct db pid = some p) : p ∈ db.products :=
  List.mem_of_find?_eq_some h

theorem findOrder_eq_id (db : DB) (oid : Nat) (o : Order)
    (h : findOrder db oid = some o) : o.id = oid := by
  have := List.find?_some h
  simpa using this

theorem mem_passedOf (l : List (ItemReq × Except ApiError Rat)) (it : ItemReq) (up : Rat)
    (h : (it, up) ∈ passedOf l) : (it, Except.ok up) ∈ l := by
  induction l with
  | nil => simp [passedOf] at h
  | cons x rest ih =>
    obtain ⟨it0, r0⟩ := x
    cases r0 with
    | ok v =>
      simp only [passedOf] at h
      rcases List.mem_cons.mp h with h | h
      · rw [Prod.ext_iff] at h
        obtain ⟨h1, h2⟩ := h
        subst h1
        subst h2
        exact List.mem_cons_self _ _
      · exact List.mem_cons_of_mem _ (ih h)
    | error e =>
      simp only [passedOf] at h
      exact List.mem_cons_of_mem _ (ih h)

theorem passedAfterErr_subset (l : List (ItemReq × Except ApiError Rat)) (x : ItemReq × Rat)
    (h : x ∈ passedAfterErr l) : x ∈ passedOf l := by
  induction l with
  | nil => simp [passedAfterErr] at h
  | cons y rest ih =>
    obtain ⟨it0, r0⟩ := y
    cases r0 with
    | ok v =>
      simp only [passedAfterErr] at h
      simp only [passedOf]
      exact List.mem_cons_of_mem _ (ih h)
    | error e =>
      simp only [passedAfterErr] at h
      simp only [passedOf]
      exact h

theorem passedOf_of_noErr (f : ItemReq → Except ApiError Rat) :
    ∀ l : List ItemReq, firstErr? (l.map (fun it => (it, f it))) = none →
      passedOf (l.map (fun it => (it, f it))) = l.map (fun it => (it, okValue (f it))) := by
  intro l
  induction l with
  | nil => intro _; rfl
  | cons it rest ih =>
    intro h
    simp only [List.map] at h ⊢
    cases hf : f it with
    | ok v =>
      rw [hf] at h
      simp only [firstErr?] at h
      simp only [passedOf, okValue, hf, ih h]
    | error e =>
      rw [hf] at h
      simp [firstErr?] at h

theorem ledgerSum_mkSaleRows (oid : Nat) (onum : String) (pid : Nat) :
    ∀ (l : List (ItemReq × Rat)) (n : Nat),
      ledgerSum (mkSaleRows oid onum n l) pid = -totalQty l pid := by
  intro l
  induction l with
  | nil => intro n; simp [mkSaleRows, ledgerSum, totalQty]
  | cons x rest ih =>
    intro n
    obtain ⟨it, up⟩ := x
    simp only [mkSaleRows, ledgerSum, totalQty, ih, signedQty]
    by_cases h : it.product_id = pid
    · simp only [if_pos h]
      omega
    · simp only [if_neg h]
      omega

theorem ledgerSum_mkReturnRows (oid : Nat) (pid : Nat) :
    ∀ (l : List OrderItem) (n : Nat),
      ledgerSum (mkReturnRows oid n l) pid = totalQtyItems l pid := by
  intro l
  induction l with
  | nil => intro n; simp [mkReturnRows, ledgerSum, totalQtyItems]
  | cons oi rest ih =>
    intro n
    simp only [mkReturnRows, ledgerSum, totalQtyItems, ih, signedQty]

theorem totalQty_map_pair (g : ItemReq → Rat) (l : List ItemReq) (pid : Nat) :
    totalQty (l.map (fun it => (it, g it))) pid = totalQtyReq l pid := by
  induction l with
  | nil => rfl
  | cons it rest ih => simp only [List.map, totalQty, totalQtyReq, ih]

theorem totalQty_passedOf_noErr (f : ItemReq → Except ApiError Rat) (l : List ItemReq)
    (h : firstErr? (l.map (fun it => (it, f it))) = none) (pid : Nat) :
    totalQty (passedOf (l.map (fun it => (it, f it)))) pid = totalQtyReq l pid := by
  rw [passedOf_of_noErr f l h]
  exact totalQty_map_pair (fun it => okValue (f it)) l pid

theorem orderChecks_insert_eq (db : DB) (onum : String) (req : OrderReq) :
    req.items.map (fun it => (it, checkItem
      { db with orders := db.orders ++ [mkOrder db.nextOrderId onum req]
                nextOrderId := db.nextOrderId + 1 } it)) = orderChecks db req :=
  List.map_congr_left fun _ _ => rfl

theorem createOrder_ok_eq (db : DB) (onum : String) (req : OrderReq)
    (hv : validOrderReq req = true)
    (hne : firstErr? (orderChecks db req) = none) :
    createOrder db onum req =
      ({ db with
          orders := db.orders ++ [mkOrder db.nextOrderId onum req]
          nextOrderId := db.nextOrderId + 1
          order_items := db.order_items ++
            mkItemRows db.nextOrderId db.nextItemId (passedOf (orderChecks db req))
          nextItemId := db.nextItemId + (passedOf (orderChecks db req)).length
          products := db.products.map (fun p =>
            { p with stock_quantity :=
                p.stock_quantity - totalQty (passedOf (orderChecks db req)) p.id })
          inventory_transactions := db.inventory_transactions ++
            mkSaleRows db.nextOrderId onum db.nextTxnId (passedOf (orderChecks db req))
          nextTxnId := db.nextTxnId + (passedOf (orderChecks db req)).length },
        .ok db.nextOrderId) := by
  simp only [createOrder, hv, Bool.not_true, Bool.false_eq_true, if_false,
    orderChecks_insert_eq, hne, insertItems_spec, appendSales_spec, applyStockDecs_eq]

theorem createOrder_err_eq (db : DB) (onum : String) (req : OrderReq) (e : ApiError)
    (hv : validOrderReq req = true)
    (he : firstErr? (orderChecks db req) = some e) :
    createOrder db onum req =
      ({ db with
          order_items := db.order_items ++
            mkItemRows db.nextOrderId db.nextItemId (passedAfterErr (orderChecks db req))
          nextItemId := db.nextItemId + (passedAfterErr (orderChecks db req)).length
          products := db.products.map (fun p =>
            { p with stock_quantity :=
                p.stock_quantity - totalQty (passedOf (orderChecks db req)) p.id })
          inventory_transactions := db.inventory_transactions ++
            mkSaleRows db.nextOrderId onum db.nextTxnId (passedOf (orderChecks db req))
          nextTxnId := db.nextTxnId + (passedOf (orderChecks db req)).length },
        .error e) := by
  simp only [createOrder, hv, Bool.not_true, Bool.false_eq_true, if_false,
    orderChecks_insert_eq, he, insertItems_spec, appendSales_spec, applyStockDecs_eq]

theorem createOrder_invalid_eq (db : DB) (onum : String) (req : OrderReq)
    (hv : validOrderReq req = false) :
    createOrder db onum req = (db, .error .validationFailed) := by
  simp [createOrder, hv]

theorem cancelOrder_eq (db : DB) (oid : Nat) :
    cancelOrder db oid =
      ({ db with
          products := db.products.map (fun p =>
            { p with stock_quantity :=
                p.stock_quantity + totalQtyItems (itemsOf db oid) p.id })
          inventory_transactions := db.inventory_transactions ++
            mkReturnRows oid db.nextTxnId (itemsOf db oid)
          nextTxnId := db.nextTxnId + (itemsOf db oid).length
          orders := db.orders.map (fun o =>
            if o.id = oid then { o with status := "cancelled" } else o) },
        .ok ()) := by
  simp [cancelOrder, itemsOf, applyStockIncs_eq, appendReturns_spec]

theorem checkItem_ok_product (db : DB) (it : ItemReq) (up : Rat)
    (h : checkItem db it = .ok up) :
    ∃ p, findProduct db it.product_id = some p ∧ ¬(p.stock_quantity < it.quantity)
      ∧ up = effectiveUnitPrice it p := by
  unfold checkItem at h
  split at h
  · simp at h
  · rename_i p hf
    split at h
    · simp at h
    · rename_i hs
      refine ⟨p, hf, hs, ?_⟩
      injection h with h2
      exact h2.symm

theorem passedOf_orderChecks_mem (db : DB) (req : OrderReq) (it : ItemReq) (up : Rat)
    (h : (it, up) ∈ passedOf (orderChecks db req)) :
    it ∈ req.items ∧ checkItem db it = .ok up := by
  have h1 := mem_passedOf _ _ _ h
  unfold orderChecks at h1
  obtain ⟨it0, hmem, heq⟩ := List.mem_map.mp h1
  rw [Prod.ext_iff] at heq
  obtain ⟨h2, h3⟩ := heq
  simp only at h2 h3
  subst h2
  exact ⟨hmem, h3⟩

theorem mem_mkSaleRows (oid : Nat) (onum : String) (t : InvTxn) :
    ∀ (l : List (ItemReq × Rat)) (n : Nat), t ∈ mkSaleRows oid onum n l →
      ∃ x ∈ l, t.product_id = x.1.product_id := by
  intro l
  induction l with
  | nil => intro n h; simp [mkSaleRows] at h
  | cons x rest ih =>
    intro n h
    obtain ⟨it, up⟩ := x
    simp only [mkSaleRows] at h
    rcases List.mem_cons.mp h with h | h
    · exact ⟨(it, up), List.mem_cons_self _ _, by rw [h]⟩
    · obtain ⟨y, hy, hpid⟩ := ih (n + 1) h
      exact ⟨y, List.mem_cons_of_mem _ hy, hpid⟩

theorem mem_mkItemRows (oid : Nat) (oi : OrderItem) :
    ∀ (l : List (ItemReq × Rat)) (n : Nat), oi ∈ mkItemRows oid n l →
      ∃ x ∈ l, oi.product_id = x.1.product_id := by
  intro l
  induction l with
  | nil => intro n h; simp [mkItemRows] at h
  | cons x rest ih =>
    intro n h
    obtain ⟨it, up⟩ := x
    simp only [mkItemRows] at h
    rcases List.mem_cons.mp h with h | h
    · exact ⟨(it, up), List.mem_cons_self _ _, by rw [h]⟩
    · obtain ⟨y, hy, hpid⟩ := ih (n + 1) h
      exact ⟨y, List.mem_cons_of_mem _ hy, hpid⟩

theorem mem_mkReturnRows (oid : Nat) (t : InvTxn) :
    ∀ (l : List OrderItem) (n : Nat), t ∈ mkReturnRows oid n l →
      ∃ oi ∈ l, t.product_id = oi.product_id := by
  intro l
  induction l with
  | nil => intro n h; simp [mkReturnRows] at h
  | cons oi0 rest ih =>
    intro n h
    simp only [mkReturnRows] at h
    rcases List.mem_cons.mp h with h | h
    · exact ⟨oi0, List.mem_cons_self _ _, by rw [h]⟩
    · obtain ⟨y, hy, hpid⟩ := ih (n + 1) h
      exact ⟨y, List.mem_cons_of_mem _ hy, hpid⟩

theorem SLI_step (ps : List Product) (ts : List InvTxn) (f : Product → Product)
    (new : List InvTxn) (hid : ∀ p, (f p).id = p.id)
    (hstock : ∀ p ∈ ps, (f p).stock_quantity = p.stock_quantity + ledgerSum new p.id)
    (h : SLI ps ts) : SLI (ps.map f) (ts ++ new) := by
  intro p' hp'
  obtain ⟨p, hp, rfl⟩ := List.mem_map.mp hp'
  rw [hid, ledgerSum_append, ← h p hp, hstock p hp]

theorem createProduct_ok_eq (db : DB) (req : ProductReq)
    (hv : validProductReq req = true)
    (hsku : (db.products.any (fun p => p.sku == req.sku)) = false) :
    createProduct db req =
      ({ db with
          products := db.products ++
            [{ id := db.nextProductId, name := req.name, sku := req.sku
               category_id := req.category_id, price := req.price, cost := req.cost
               stock_quantity := req.stock_quantity
               min_stock_level := req.min_stock_level, status := req.status }]
          nextProductId := db.nextProductId + 1
          inventory_transactions := db.inventory_transactions ++
            [{ id := db.nextTxnId, product_id := db.nextProductId
               transaction_type := .initial_stock, quantity := req.stock_quantity
               reference_id := none, reference_type := none
               notes := "Initial stock entry" }]
          nextTxnId := db.nextTxnId + 1 }, .ok db.nextProductId) := by
  simp [createProduct, hv, hsku]

theorem createProduct_invalid_eq (db : DB) (req : ProductReq)
    (hv : validProductReq req = false) :
    createProduct db req = (db, .error .validationFailed) := by
  simp [createProduct, hv]

theorem createProduct_sku_eq (db : DB) (req : ProductReq)
    (hv : validProductReq req = true)
    (hsku : (db.products.any (fun p => p.sku == req.sku)) = true) :
    createProduct db req = (db, .error .skuExists) := by
  simp [createProduct, hv, hsku]

theorem reconInv_createProduct (db : DB) (req : ProductReq) (h : ReconInv db) :
    ReconInv (createProduct db req).1 := by
  obtain ⟨hsli, hbp, hbt, hbi⟩ := h
  by_cases hv : validProductReq req = true
  · by_cases hsku : (db.products.any (fun p => p.sku == req.sku)) = true
    · rw [createProduct_sku_eq db req hv hsku]
      exact ⟨hsli, hbp, hbt, hbi⟩
    · have hsku' : (db.products.any (fun p => p.sku == req.sku)) = false :=
        Bool.eq_false_iff.mpr hsku
      rw [createProduct_ok_eq db req hv hsku']
      unfold ReconInv SLI PidBound
      dsimp only
      refine ⟨?_, ?_, ?_, ?_⟩
      · intro q hq
        rcases List.mem_append.mp hq with hq | hq
        · have hlt := hbp q hq
          have hne : db.nextProductId ≠ q.id := by omega
          rw [ledgerSum_append]
          simp [ledgerSum, hne, hsli q hq]
        · have hq' := List.mem_singleton.mp hq
          subst hq'
          rw [ledgerSum_append]
          dsimp only
          have h0 : ledgerSum db.inventory_transactions db.nextProductId = 0 :=
            ledgerSum_eq_zero_of_not_mem _ _ (fun t ht => (hbt t ht).ne)
          rw [h0, zero_add]
          simp [ledgerSum, signedQty]
      · intro q hq
        rcases List.mem_append.mp hq with hq | hq
        · have := hbp q hq
          omega
        · have hq' := List.mem_singleton.mp hq
          subst hq'
          dsimp only
          omega
      · intro t ht
        rcases List.mem_append.mp ht with ht | ht
        · have := hbt t ht
          omega
        · have ht' := List.mem_singleton.mp ht
          subst ht'
          dsimp only
          omega
      · intro oi hoi
        have := hbi oi hoi
        omega
  · have hv' : validProductReq req = false := Bool.eq_false_iff.mpr hv
    rw [createProduct_invalid_eq db req hv']
    exact ⟨hsli, hbp, hbt, hbi⟩

theorem adjustStock_ok_eq (db : DB) (pid : Nat) (q : Int) (ty : TxnType) (p : Product)
    (hty : (ty == TxnType.adjustment_in || ty == TxnType.adjustment_out) = true)
    (hf : findProduct db pid = some p)
    (hnn : ¬(p.stock_quantity + (if ty = .adjustment_in then |q| else -|q|) < 0)) :
    adjustStock db pid q ty =
      ({ db with
          products := db.products.map (fun x =>
            if x.id = pid then
              { x with stock_quantity :=
                  p.stock_quantity + (if ty = .adjustment_in then |q| else -|q|) }
            else x)
          inventory_transactions := db.inventory_transactions ++
            [{ id := db.nextTxnId, product_id := pid, transaction_type := ty
               quantity := |q|, reference_id := none, reference_type := none
               notes := "" }]
          nextTxnId := db.nextTxnId + 1 },
        .ok (p.stock_quantity + (if ty = .adjustment_in then |q| else -|q|))) := by
  simp [adjustStock, hty, hf, hnn]

theorem adjustStock_invalid_eq (db : DB) (pid : Nat) (q : Int) (ty : TxnType)
    (hty : (ty == TxnType.adjustment_in || ty == TxnType.adjustment_out) = false) :
    adjustStock db pid q ty = (db, .error .validationFailed) := by
  simp [adjustStock, hty]

theorem adjustStock_notFound_eq (db : DB) (pid : Nat) (q : Int) (ty : TxnType)
    (hty : (ty == TxnType.adjustment_in || ty == TxnType.adjustment_out) = true)
    (hf : findProduct db pid = none) :
    adjustStock db pid q ty = (db, .error (.productNotFound pid)) := by
  simp [adjustStock, hty, hf]

theorem adjustStock_insufficient_eq (db : DB) (pid : Nat) (q : Int) (ty : TxnType)
    (p : Product)
    (hty : (ty == TxnType.adjustment_in || ty == TxnType.adjustment_out) = true)
    (hf : findProduct db pid = some p)
    (hneg : p.stock_quantity + (if ty = .adjustment_in then |q| else -|q|) < 0) :
    adjustStock db pid q ty = (db, .error (.insufficientStock pid)) := by
  simp [adjustStock, hty, hf, hneg]

theorem reconInv_adjustStock (db : DB) (pid : Nat) (q : Int) (ty : TxnType)
    (h : ReconInv db) : ReconInv (adjustStock db pid q ty).1 := by
  obtain ⟨hsli, hbp, hbt, hbi⟩ := h
  by_cases hty : (ty == TxnType.adjustment_in || ty == TxnType.adjustment_out) = true
  · cases hf : findProduct db pid with
    | none =>
      rw [adjustStock_notFound_eq db pid q ty hty hf]
      exact ⟨hsli, hbp, hbt, hbi⟩
    | some p =>
      have hpmem := findProduct_mem db pid p hf
      have hpid := findProduct_eq_id db pid p hf
      by_cases hneg : p.stock_quantity + (if ty = .adjustment_in then |q| else -|q|) < 0
      · rw [adjustStock_insufficient_eq db pid q ty p hty hf hneg]
        exact ⟨hsli, hbp, hbt, hbi⟩
      · rw [adjustStock_ok_eq db pid q ty p hty hf hneg]
        unfold ReconInv SLI PidBound
        dsimp only
        have hadj : signedQty
            { id := db.nextTxnId, product_id := pid, transaction_type := ty
              quantity := |q|, reference_id := none, reference_type := none
              notes := "" } =
            (if ty = .adjustment_in then |q| else -|q|) := by
          rcases Bool.or_eq_true_iff.mp hty with h1 | h1
          · have : ty = TxnType.adjustment_in := by simpa using h1
            subst this
            simp [signedQty]
          · have : ty = TxnType.adjustment_out := by simpa using h1
            subst this
            simp [signedQty]
        refine ⟨?_, ?_, ?_, ?_⟩
        · intro x hx
          obtain ⟨x0, hx0, rfl⟩ := List.mem_map.mp hx
          rw [ledgerSum_append]
          by_cases hxid : x0.id = pid
          · rw [if_pos hxid]
            dsimp only
            have hsum : ledgerSum
                [{ id := db.nextTxnId, product_id := pid, transaction_type := ty
                   quantity := |q|, reference_id := none, reference_type := none
                   notes := "" }] pid =
                (if ty = .adjustment_in then |q| else -|q|) := by
              simp [ledgerSum, hadj]
            rw [hxid, hsum]
            have hx0stock : x0.stock_quantity = ledgerSum db.inventory_transactions pid := by
              have := hsli x0 hx0
              rwa [hxid] at this
            have hpstock : p.stock_quantity = ledgerSum db.inventory_transactions pid := by
              have := hsli p hpmem
              rwa [hpid] at this
            rw [← hpstock]
          · rw [if_neg hxid]
            have hsum : ledgerSum
                [{ id := db.nextTxnId, product_id := pid, transaction_type := ty
                   quantity := |q|, reference_id := none, reference_type := none
                   notes := "" }] x0.id = 0 := by
              simp [ledgerSum]
              intro hc
              exact absurd hc.symm hxid
            rw [hsum, add_zero]
            exact hsli x0 hx0
        · intro x hx
          obtain ⟨x0, hx0, rfl⟩ := List.mem_map.mp hx
          have := hbp x0 hx0
          by_cases hxid : x0.id = pid
          · rw [if_pos hxid]
            dsimp only
            omega
          · rw [if_neg hxid]
            omega
        · intro t ht
          rcases List.mem_append.mp ht with ht | ht
          · exact hbt t ht
          · have ht' := List.mem_singleton.mp ht
            subst ht'
            dsimp only
            have := hbp p hpmem
            omega
        · exact hbi
  · have hty' : (ty == TxnType.adjustment_in || ty == TxnType.adjustment_out) = false :=
      Bool.eq_false_iff.mpr hty
    rw [adjustStock_invalid_eq db pid q ty hty']
    exact ⟨hsli, hbp, hbt, hbi⟩

theorem applyUpdates_id (p : Product) (u : ProductUpdate) :
    (applyUpdates p u).id = p.id := rfl

theorem updateProduct_invalid_eq (db : DB) (pid : Nat) (u : ProductUpdate)
    (hv : validProductUpdate u = false) :
    updateProduct db pid u = (db, .error .validationFailed) := by
  simp [updateProduct, hv]

theorem updateProduct_notFound_eq (db : DB) (pid : Nat) (u : ProductUpdate)
    (hv : validProductUpdate u = true) (hf : findProduct db pid = none) :
    updateProduct db pid u = (db, .error (.productNotFound pid)) := by
  simp [updateProduct, hv, hf]

theorem updateProduct_noUpdates_eq (db : DB) (pid : Nat) (u : ProductUpdate)
    (current : Product) (hv : validProductUpdate u = true)
    (hf : findProduct db pid = some current) (hu : hasUpdates u = false) :
    updateProduct db pid u = (db, .error .noUpdates) := by
  simp [updateProduct, hv, hf, hu]

theorem updateProduct_ok_stock_eq (db : DB) (pid : Nat) (u : ProductUpdate)
    (current : Product) (s : Int) (hv : validProductUpdate u = true)
    (hf : findProduct db pid = some current) (hu : hasUpdates u = true)
    (hs : u.stock_quantity = some s) (hne : s ≠ current.stock_quantity) :
    updateProduct db pid u =
      ({ db with
          products := db.products.map (fun p =>
            if p.id = pid then applyUpdates p u else p)
          inventory_transactions := db.inventory_transactions ++
            [{ id := db.nextTxnId, product_id := pid
               transaction_type :=
                 if 0 < s - current.stock_quantity then .adjustment_in
                 else .adjustment_out
               quantity := |s - current.stock_quantity|, reference_id := none
               reference_type := none, notes := "Manual stock adjustment" }]
          nextTxnId := db.nextTxnId + 1 }, .ok ()) := by
  simp [updateProduct, hv, hf, hu, hs, hne]

theorem updateProduct_ok_none_eq (db : DB) (pid : Nat) (u : ProductUpdate)
    (current : Product) (hv : validProductUpdate u = true)
    (hf : findProduct db pid = some current) (hu : hasUpdates u = true)
    (hs : u.stock_quantity = none) :
    updateProduct db pid u =
      ({ db with
          products := db.products.map (fun p =>
            if p.id = pid then applyUpdates p u else p) }, .ok ()) := by
  simp [updateProduct, hv, hf, hu, hs]

theorem updateProduct_ok_same_eq (db : DB) (pid : Nat) (u : ProductUpdate)
    (current : Product) (s : Int) (hv : validProductUpdate u = true)
    (hf : findProduct db pid = some current) (hu : hasUpdates u = true)
    (hs : u.stock_quantity = some s) (heq : s = current.stock_quantity) :
    updateProduct db pid u =
      ({ db with
          products := db.products.map (fun p =>
            if p.id = pid then applyUpdates p u else p) }, .ok ()) := by
  simp [updateProduct, hv, hf, hu, hs, heq]

theorem reconInv_updateProduct (db : DB) (pid : Nat) (u : ProductUpdate)
    (h : ReconInv db) : ReconInv (updateProduct db pid u).1 := by
  obtain ⟨hsli, hbp, hbt, hbi⟩ := h
  by_cases hv : validProductUpdate u = true
  · cases hf : findProduct db pid with
    | none =>
      rw [updateProduct_notFound_eq db pid u hv hf]
      exact ⟨hsli, hbp, hbt, hbi⟩
    | some current =>
      have hpmem := findProduct_mem db pid current hf
      have hpid := findProduct_eq_id db pid current hf
      by_cases hu : hasUpdates u = true
      · have hmap_sli_nostock :
            ∀ x0 ∈ db.products, x0.id = pid →
              (applyUpdates x0 u).stock_quantity = x0.stock_quantity →
              (if x0.id = pid then applyUpdates x0 u else x0).stock_quantity =
                ledgerSum db.inventory_transactions
                  (if x0.id = pid then applyUpdates x0 u else x0).id := by
          intro x0 hx0 hxid hstock
          rw [if_pos hxid, applyUpdates_id, hstock]
          exact hsli x0 hx0
        cases hs : u.stock_quantity with
        | none =>
          rw [updateProduct_ok_none_eq db pid u current hv hf hu hs]
          unfold ReconInv SLI PidBound
          dsimp only
          refine ⟨?_, ?_, hbt, hbi⟩
          · intro x hx
            obtain ⟨x0, hx0, rfl⟩ := List.mem_map.mp hx
            by_cases hxid : x0.id = pid
            · exact hmap_sli_nostock x0 hx0 hxid (by simp [applyUpdates, hs])
            · rw [if_neg hxid]
              exact hsli x0 hx0
          · intro x hx
            obtain ⟨x0, hx0, rfl⟩ := List.mem_map.mp hx
            have := hbp x0 hx0
            by_cases hxid : x0.id = pid
            · rw [if_pos hxid, applyUpdates_id]
              omega
            · rw [if_neg hxid]
              omega
        | some s =>
          by_cases hne : s = current.stock_quantity
          · rw [updateProduct_ok_same_eq db pid u current s hv hf hu hs hne]
            unfold ReconInv SLI PidBound
            dsimp only
            refine ⟨?_, ?_, hbt, hbi⟩
            · intro x hx
              obtain ⟨x0, hx0, rfl⟩ := List.mem_map.mp hx
              by_cases hxid : x0.id = pid
              · refine hmap_sli_nostock x0 hx0 hxid ?_
                have hx0stock : x0.stock_quantity = current.stock_quantity := by
                  have h1 := hsli x0 hx0
                  have h2 := hsli current hpmem
                  rw [hxid] at h1
                  rw [hpid] at h2
                  rw [h1, h2]
                simp [applyUpdates, hs, hne, hx0stock]
              · rw [if_neg hxid]
                exact hsli x0 hx0
            · intro x hx
              obtain ⟨x0, hx0, rfl⟩ := List.mem_map.mp hx
              have := hbp x0 hx0
              by_cases hxid : x0.id = pid
              · rw [if_pos hxid, applyUpdates_id]
                omega
              · rw [if_neg hxid]
                omega
          · rw [updateProduct_ok_stock_eq db pid u current s hv hf hu hs hne]
            unfold ReconInv SLI PidBound
            dsimp only
            have hsigned : signedQty
                { id := db.nextTxnId, product_id := pid
                  transaction_type :=
                    if 0 < s - current.stock_quantity then .adjustment_in
                    else .adjustment_out
                  quantity := |s - current.stock_quantity|, reference_id := none
                  reference_type := none, notes := "Manual stock adjustment" } =
                s - current.stock_quantity := by
              by_cases hd : 0 < s - current.stock_quantity
              · simp only [if_pos hd, signedQty]
                exact abs_of_pos hd
              · have hdlt : s - current.stock_quantity < 0 := by
                  rcases lt_trichotomy (s - current.stock_quantity) 0 with hc | hc | hc
                  · exact hc
                  · exact absurd (by omega : s = current.stock_quantity) hne
                  · exact absurd hc hd
                simp only [if_neg hd, signedQty]
                rw [abs_of_neg hdlt]
                omega
            refine ⟨?_, ?_, ?_, hbi⟩
            · intro x hx
              obtain ⟨x0, hx0, rfl⟩ := List.mem_map.mp hx
              rw [ledgerSum_append]
              by_cases hxid : x0.id = pid
              · rw [if_pos hxid, applyUpdates_id, hxid]
                have hstock : (applyUpdates x0 u).stock_quantity = s := by
                  simp [applyUpdates, hs]
                rw [hstock]
                have hsum1 : ledgerSum
                    [{ id := db.nextTxnId, product_id := pid
                       transaction_type :=
                         if 0 < s - current.stock_quantity then .adjustment_in
                         else .adjustment_out
                       quantity := |s - current.stock_quantity|, reference_id := none
                       reference_type := none
                       notes := "Manual stock adjustment" }] pid =
                    s - current.stock_quantity := by
                  simp only [ledgerSum, add_zero, eq_self_iff_true, if_true]
                  exact hsigned
                rw [hsum1]
                have hcur : current.stock_quantity = ledgerSum db.inventory_transactions pid := by
                  have := hsli current hpmem
                  rwa [hpid] at this
                omega
              · rw [if_neg hxid]
                have hsum0 : ledgerSum
                    [{ id := db.nextTxnId, product_id := pid
                       transaction_type :=
                         if 0 < s - current.stock_quantity then .adjustment_in
                         else .adjustment_out
                       quantity := |s - current.stock_quantity|, reference_id := none
                       reference_type := none
                       notes := "Manual stock adjustment" }] x0.id = 0 := by
                  simp [ledgerSum]
                  intro hc
                  exact absurd hc.symm hxid
                rw [hsum0, add_zero]
                exact hsli x0 hx0
            · intro x hx
              obtain ⟨x0, hx0, rfl⟩ := List.mem_map.mp hx
              have := hbp x0 hx0
              by_cases hxid : x0.id = pid
              · rw [if_pos hxid, applyUpdates_id]
                omega
              · rw [if_neg hxid]
                omega
            · intro t ht
              rcases List.mem_append.mp ht with ht | ht
              · exact hbt t ht
              · have ht' := List.mem_singleton.mp ht
                subst ht'
                dsimp only
                have := hbp current hpmem
                omega
      · have hu' : hasUpdates u = false := Bool.eq_false_iff.mpr hu
        rw [updateProduct_noUpdates_eq db pid u current hv hf hu']
        exact ⟨hsli, hbp, hbt, hbi⟩
  · have hv' : validProductUpdate u = false := Bool.eq_false_iff.mpr hv
    rw [updateProduct_invalid_eq db pid u hv']
    exact ⟨hsli, hbp, hbt, hbi⟩

theorem reconInv_createOrder (db : DB) (onum : String) (req : OrderReq)
    (h : ReconInv db) : ReconInv (createOrder db onum req).1 := by
  obtain ⟨hsli, hbp, hbt, hbi⟩ := h
  by_cases hv : validOrderReq req = true
  · have hbound : ∀ x ∈ passedOf (orderChecks db req),
        x.1.product_id < db.nextProductId := by
      intro x hx
      obtain ⟨it, up⟩ := x
      obtain ⟨hmem, hchk⟩ := passedOf_orderChecks_mem db req it up hx
      obtain ⟨p, hf, _, _⟩ := checkItem_ok_product db it up hchk
      have h3 : p ∈ db.products := List.mem_of_find?_eq_some hf
      have h2 := findProduct_eq_id db _ p hf
      have h4 := hbp p h3
      dsimp only
      omega
    have hsli' : SLI
        (db.products.map (fun p =>
          { p with stock_quantity :=
              p.stock_quantity - totalQty (passedOf (orderChecks db req)) p.id }))
        (db.inventory_transactions ++
          mkSaleRows db.nextOrderId onum db.nextTxnId (passedOf (orderChecks db req))) := by
      refine SLI_step _ _ _ _ (fun p => rfl) ?_ hsli
      intro p hp
      rw [ledgerSum_mkSaleRows]
      dsimp only
      omega
    have hbp' : ∀ x ∈ db.products.map (fun p =>
        { p with stock_quantity :=
            p.stock_quantity - totalQty (passedOf (orderChecks db req)) p.id }),
        x.id < db.nextProductId := by
      intro x hx
      obtain ⟨x0, hx0, rfl⟩ := List.mem_map.mp hx
      exact hbp x0 hx0
    have hbt' : ∀ t ∈ db.inventory_transactions ++
        mkSaleRows db.nextOrderId onum db.nextTxnId (passedOf (orderChecks db req)),
        t.product_id < db.nextProductId := by
      intro t ht
      rcases List.mem_append.mp ht with ht | ht
      · exact hbt t ht
      · obtain ⟨x, hxmem, hpid⟩ := mem_mkSaleRows _ onum t _ _ ht
        rw [hpid]
        exact hbound x hxmem
    cases he : firstErr? (orderChecks db req) with
    | none =>
      rw [createOrder_ok_eq db onum req hv he]
      refine ⟨hsli', hbp', hbt', ?_⟩
      intro oi hoi
      rcases List.mem_append.mp hoi with hoi | hoi
      · exact hbi oi hoi
      · obtain ⟨x, hxmem, hpid⟩ := mem_mkItemRows _ oi _ _ hoi
        rw [hpid]
        exact hbound x hxmem
    | some e =>
      rw [createOrder_err_eq db onum req e hv he]
      refine ⟨hsli', hbp', hbt', ?_⟩
      intro oi hoi
      rcases List.mem_append.mp hoi with hoi | hoi
      · exact hbi oi hoi
      · obtain ⟨x, hxmem, hpid⟩ := mem_mkItemRows _ oi _ _ hoi
        rw [hpid]
        exact hbound x (passedAfterErr_subset _ x hxmem)
  · have hv' : validOrderReq req = false := Bool.eq_false_iff.mpr hv
    rw [createOrder_invalid_eq db onum req hv']
    exact ⟨hsli, hbp, hbt, hbi⟩

theorem reconInv_cancelOrder (db : DB) (oid : Nat) (h : ReconInv db) :
    ReconInv (cancelOrder db oid).1 := by
  obtain ⟨hsli, hbp, hbt, hbi⟩ := h
  rw [cancelOrder_eq]
  refine ⟨?_, ?_, ?_, hbi⟩
  · refine SLI_step _ _ _ _ (fun p => rfl) ?_ hsli
    intro p hp
    rw [ledgerSum_mkReturnRows]
  · intro x hx
    obtain ⟨x0, hx0, rfl⟩ := List.mem_map.mp hx
    exact hbp x0 hx0
  · intro t ht
    rcases List.mem_append.mp ht with ht | ht
    · exact hbt t ht
    · obtain ⟨oi, hoimem, hpid⟩ := mem_mkReturnRows _ t _ _ ht
      rw [hpid]
      exact hbi oi (List.mem_of_mem_filter hoimem)

theorem reconInv_applyOp (db : DB) (op : Op) (h : ReconInv db) :
    ReconInv (applyOp db op) := by
  cases op with
  | opCreateProduct req => exact reconInv_createProduct db req h
  | opCreateOrder onum req => exact reconInv_createOrder db onum req h
  | opCancelOrder oid => exact reconInv_cancelOrder db oid h
  | opAdjustStock pid q ty => exact reconInv_adjustStock db pid q ty h
  | opUpdateProduct pid u => exact reconInv_updateProduct db pid u h

theorem reconInv_foldl : ∀ (ops : List Op) (db : DB), ReconInv db →
    ReconInv (ops.foldl applyOp db) := by
  intro ops
  induction ops with
  | nil => intro db h; exact h
  | cons op rest ih =>
    intro db h
    exact ih (applyOp db op) (reconInv_applyOp db op h)

theorem reconInv_emptyDB : ReconInv emptyDB := by
  refine ⟨?_, ?_, ?_, ?_⟩ <;> intro x hx <;> simp [emptyDB] at hx

theorem reconInv_run (ops : List Op) : ReconInv (run ops) :=
  reconInv_foldl ops emptyDB reconInv_emptyDB

theorem find?_map_pred {α : Type} (l : List α) (f : α → α) (pr : α → Bool)
    (hf : ∀ x, pr (f x) = pr x) : (l.map f).find? pr = (l.find? pr).map f := by
  induction l with
  | nil => rfl
  | cons x rest ih =>
    cases hx : pr x with
    | true => simp [List.find?, hf, hx]
    | false => simp [List.find?, hf, hx, ih]

theorem mkItemRows_length (oid : Nat) :
    ∀ (l : List (ItemReq × Rat)) (n : Nat), (mkItemRows oid n l).length = l.length := by
  intro l
  induction l with
  | nil => intro n; rfl
  | cons x rest ih =>
    intro n
    obtain ⟨it, up⟩ := x
    simp [mkItemRows, ih]

theorem mkSaleRows_length (oid : Nat) (onum : String) :
    ∀ (l : List (ItemReq × Rat)) (n : Nat), (mkSaleRows oid onum n l).length = l.length := by
  intro l
  induction l with
  | nil => intro n; rfl
  | cons x rest ih =>
    intro n
    obtain ⟨it, up⟩ := x
    simp [mkSaleRows, ih]

theorem mkReturnRows_length (oid : Nat) :
    ∀ (l : List OrderItem) (n : Nat), (mkReturnRows oid n l).length = l.length := by
  intro l
  induction l with
  | nil => intro n; rfl
  | cons oi rest ih =>
    intro n
    simp [mkReturnRows, ih]

theorem validOrderReq_items_qty (req : OrderReq) (hv : validOrderReq req = true) :
    ∀ it ∈ req.items, 1 ≤ it.quantity := by
  intro it hit
  unfold validOrderReq at hv
  simp only [Bool.and_eq_true, List.all_eq_true, decide_eq_true_eq] at hv
  exact hv.1.2 it hit

theorem mkSaleRows_props (oid : Nat) (onum : String) :
    ∀ (l : List (ItemReq × Rat)) (n : Nat), (∀ x ∈ l, 1 ≤ x.1.quantity) →
      ∀ t ∈ mkSaleRows oid onum n l,
        t.transaction_type = .sale ∧ t.quantity < 0 ∧ t.reference_id = some oid := by
  intro l
  induction l with
  | nil => intro n _ t ht; simp [mkSaleRows] at ht
  | cons x rest ih =>
    intro n hq t ht
    obtain ⟨it, up⟩ := x
    simp only [mkSaleRows] at ht
    rcases List.mem_cons.mp ht with ht | ht
    · subst ht
      refine ⟨rfl, ?_, rfl⟩
      have := hq (it, up) (List.mem_cons_self _ _)
      dsimp only at this ⊢
      omega
    · exact ih (n + 1) (fun x hx => hq x (List.mem_cons_of_mem _ hx)) t ht

theorem mkReturnRows_props (oid : Nat) :
    ∀ (l : List OrderItem) (n : Nat), ∀ t ∈ mkReturnRows oid n l,
      t.transaction_type = .ret ∧ t.reference_id = some oid
        ∧ t.reference_type = some "order_cancellation"
        ∧ ∃ oi ∈ l, t.quantity = oi.quantity := by
  intro l
  induction l with
  | nil => intro n t ht; simp [mkReturnRows] at ht
  | cons oi0 rest ih =>
    intro n t ht
    simp only [mkReturnRows] at ht
    rcases List.mem_cons.mp ht with ht | ht
    · subst ht
      exact ⟨rfl, rfl, rfl, oi0, List.mem_cons_self _ _, rfl⟩
    · obtain ⟨h1, h2, h3, oi, hoi, h4⟩ := ih (n + 1) t ht
      exact ⟨h1, h2, h3, oi, List.mem_cons_of_mem _ hoi, h4⟩

theorem noErr_all_ok (f : ItemReq → Except ApiError Rat) :
    ∀ l : List ItemReq, firstErr? (l.map (fun it => (it, f it))) = none →
      ∀ it ∈ l, ∃ u, f it = .ok u := by
  intro l
  induction l with
  | nil => intro _ it hit; simp at hit
  | cons it0 rest ih =>
    intro h it hit
    simp only [List.map] at h
    cases hf : f it0 with
    | ok v =>
      rw [hf] at h
      simp only [firstErr?] at h
      rcases List.mem_cons.mp hit with hit | hit
      · subst hit; exact ⟨v, hf⟩
      · exact ih h it hit
    | error e =>
      rw [hf] at h
      simp [firstErr?] at h

theorem createOrder_ok_inv (db : DB) (onum : String) (req : OrderReq) (oid : Nat)
    (h : (createOrder db onum req).2 = .ok oid) :
    validOrderReq req = true ∧ firstErr? (orderChecks db req) = none
      ∧ oid = db.nextOrderId := by
  by_cases hv : validOrderReq req = true
  · cases he : firstErr? (orderChecks db req) with
    | none =>
      rw [createOrder_ok_eq db onum req hv he] at h
      injection h with h2
      exact ⟨hv, rfl, h2.symm⟩
    | some e =>
      rw [createOrder_err_eq db onum req e hv he] at h
      exact absurd h (by simp)
  · have hv' : validOrderReq req = false := Bool.eq_false_iff.mpr hv
    rw [createOrder_invalid_eq db onum req hv'] at h
    exact absurd h (by simp)

theorem createProduct_ok_inv (db : DB) (req : ProductReq) (pid : Nat)
    (h : (createProduct db req).2 = .ok pid) :
    validProductReq req = true
      ∧ (db.products.any (fun p => p.sku == req.sku)) = false
      ∧ pid = db.nextProductId := by
  by_cases hv : validProductReq req = true
  · by_cases hsku : (db.products.any (fun p => p.sku == req.sku)) = true
    · rw [createProduct_sku_eq db req hv hsku] at h
      exact absurd h (by simp)
    · have hsku' := Bool.eq_false_iff.mpr hsku
      rw [createProduct_ok_eq db req hv hsku'] at h
      injection h with h2
      exact ⟨hv, hsku', h2.symm⟩
  · have hv' := Bool.eq_false_iff.mpr hv
    rw [createProduct_invalid_eq db req hv'] at h
    exact absurd h (by simp)

theorem updateProduct_ok_inv (db : DB) (pid : Nat) (u : ProductUpdate)
    (h : (updateProduct db pid u).2 = .ok ()) :
    validProductUpdate u = true ∧ hasUpdates u = true
      ∧ ∃ current, findProduct db pid = some current := by
  by_cases hv : validProductUpdate u = true
  · cases hf : findProduct db pid with
    | none =>
      rw [updateProduct_notFound_eq db pid u hv hf] at h
      exact absurd h (by simp)
    | some current =>
      by_cases hu : hasUpdates u = true
      · exact ⟨hv, hu, current, hf ▸ rfl⟩
      · have hu' := Bool.eq_false_iff.mpr hu
        rw [updateProduct_noUpdates_eq db pid u current hv hf hu'] at h
        exact absurd h (by simp)
  · have hv' := Bool.eq_false_iff.mpr hv
    rw [updateProduct_invalid_eq db pid u hv'] at h
    exact absurd h (by simp)

theorem validProductUpdate_stock_nonneg (u : ProductUpdate) (s : Int)
    (hv : validProductUpdate u = true) (hs : u.stock_quantity = some s) : 0 ≤ s := by
  unfold validProductUpdate at hv
  rw [hs] at hv
  simp only [Bool.and_eq_true, decide_eq_true_eq] at hv
  exact hv.2

theorem mkItemRows_order_id (oid : Nat) :
    ∀ (l : List (ItemReq × Rat)) (n : Nat), ∀ oi ∈ mkItemRows oid n l,
      oi.order_id = oid := by
  intro l
  induction l with
  | nil => intro n oi hoi; simp [mkItemRows] at hoi
  | cons x rest ih =>
    intro n oi hoi
    obtain ⟨it, up⟩ := x
    simp only [mkItemRows] at hoi
    rcases List.mem_cons.mp hoi with hoi | hoi
    · subst hoi; rfl
    · exact ih (n + 1) oi hoi

theorem filter_order_id_eq_nil (oid : Nat) (l : List OrderItem)
    (h : ∀ oi ∈ l, oi.order_id ≠ oid) :
    l.filter (fun oi => oi.order_id == oid) = [] := by
  induction l with
  | nil => rfl
  | cons oi rest ih =>
    have h1 : (oi.order_id == oid) = false := by
      simp [h oi (List.mem_cons_self _ _)]
    simp [List.filter, h1, ih fun x hx => h x (List.mem_cons_of_mem _ hx)]

theorem filter_order_id_self (oid : Nat) (l : List OrderItem)
    (h : ∀ oi ∈ l, oi.order_id = oid) :
    l.filter (fun oi => oi.order_id == oid) = l := by
  induction l with
  | nil => rfl
  | cons oi rest ih =>
    have h1 : (oi.order_id == oid) = true := by
      simp [h oi (List.mem_cons_self _ _)]
    simp [List.filter, h1, ih fun x hx => h x (List.mem_cons_of_mem _ hx)]

theorem itemsOf_createOrder (db : DB) (onum : String) (req : OrderReq)
    (hv : validOrderReq req = true)
    (hne : firstErr? (orderChecks db req) = none)
    (hstale : ∀ oi ∈ db.order_items, oi.order_id ≠ db.nextOrderId) :
    itemsOf (createOrder db onum req).1 db.nextOrderId =
      mkItemRows db.nextOrderId db.nextItemId (passedOf (orderChecks db req)) := by
  rw [createOrder_ok_eq db onum req hv hne]
  unfold itemsOf
  dsimp only
  rw [List.filter_append]
  rw [filter_order_id_eq_nil _ _ hstale,
    filter_order_id_self _ _ (mkItemRows_order_id _ _ _), List.nil_append]

theorem sumTotalPrice_mkItemRows (oid : Nat) :
    ∀ (l : List (ItemReq × Rat)) (n : Nat),
      sumTotalPrice (mkItemRows oid n l) = sumLineTotals l := by
  intro l
  induction l with
  | nil => intro n; rfl
  | cons x rest ih =>
    intro n
    obtain ⟨it, up⟩ := x
    simp only [mkItemRows, sumTotalPrice, sumLineTotals, ih]

theorem findOrder_append_fresh (l : List Order) (o0 : Order) (oid : Nat)
    (h : ∀ o ∈ l, o.id ≠ oid) (h0 : o0.id = oid) :
    (l ++ [o0]).find? (fun o => o.id == oid) = some o0 := by
  induction l with
  | nil => simp [List.find?, h0]
  | cons o rest ih =>
    have h1 : (o.id == oid) = false := by
      simp [h o (List.mem_cons_self _ _)]
    simp only [List.cons_append, List.find?, h1]
    exact ih fun x hx => h x (List.mem_cons_of_mem _ hx)

theorem findOrder_createOrder (db : DB) (onum : String) (req : OrderReq)
    (hv : validOrderReq req = true)
    (hne : firstErr? (orderChecks db req) = none)
    (hofresh : ∀ o ∈ db.orders, o.id ≠ db.nextOrderId) :
    findOrder (createOrder db onum req).1 db.nextOrderId =
      some (mkOrder db.nextOrderId onum req) := by
  rw [createOrder_ok_eq db onum req hv hne]
  unfold findOrder
  dsimp only
  exact findOrder_append_fresh db.orders _ _ hofresh rfl

theorem filter_eq_self_of_true {α : Type} (l : List α) (pr : α → Bool)
    (h : ∀ x ∈ l, pr x = true) : l.filter pr = l := by
  induction l with
  | nil => rfl
  | cons x rest ih =>
    simp [List.filter, h x (List.mem_cons_self _ _),
      ih fun y hy => h y (List.mem_cons_of_mem _ hy)]

theorem readOrder_products_map (db : DB) (f : Product → Product)
    (hf : ∀ p, (f p).id = p.id) (oid : Nat) (txns : List InvTxn) (nt : Nat) :
    readOrder { db with products := db.products.map f
                        inventory_transactions := txns, nextTxnId := nt } oid =
      readOrder db oid := by
  unfold readOrder findOrder
  dsimp only
  cases db.orders.find? (fun o => o.id == oid) with
  | none => rfl
  | some o =>
    dsimp only
    have hfilter : ∀ l : List OrderItem,
        l.filter (fun oi => (findProduct
            { db with products := db.products.map f
                      inventory_transactions := txns, nextTxnId := nt }
          oi.product_id).isSome) =
        l.filter (fun oi => (findProduct db oi.product_id).isSome) := by
      intro l
      refine List.filter_congr ?_
      intro oi _
      unfold findProduct
      dsimp only
      rw [find?_map_pred db.products f _ (fun p => by simp [hf])]
      cases db.products.find? (fun p => p.id == oi.product_id) <;> rfl
    rw [hfilter]

theorem readOrder_updateProduct (db : DB) (pid : Nat) (u : ProductUpdate) (oid : Nat) :
    readOrder ((updateProduct db pid u).1) oid = readOrder db oid := by
  have hidf : ∀ p : Product,
      ((fun p => if p.id = pid then applyUpdates p u else p) p).id = p.id := by
    intro p
    by_cases h : p.id = pid
    · simp [h, applyUpdates_id]
    · simp [h]
  by_cases hv : validProductUpdate u = true
  · cases hf : findProduct db pid with
    | none => rw [updateProduct_notFound_eq db pid u hv hf]
    | some current =>
      by_cases hu : hasUpdates u = true
      · cases hs : u.stock_quantity with
        | none =>
          rw [updateProduct_ok_none_eq db pid u current hv hf hu hs]
          exact readOrder_products_map db _ hidf oid db.inventory_transactions db.nextTxnId
        | some s =>
          by_cases heq : s = current.stock_quantity
          · rw [updateProduct_ok_same_eq db pid u current s hv hf hu hs heq]
            exact readOrder_products_map db _ hidf oid db.inventory_transactions db.nextTxnId
          · rw [updateProduct_ok_stock_eq db pid u current s hv hf hu hs heq]
            exact readOrder_products_map db _ hidf oid _ _
      · have hu' := Bool.eq_false_iff.mpr hu
        rw [updateProduct_noUpdates_eq db pid u current hv hf hu']
  · have hv' := Bool.eq_false_iff.mpr hv
    rw [updateProduct_invalid_eq db pid u hv']

theorem readOrder_createOrder (db : DB) (onum : String) (req : OrderReq)
    (hv : validOrderReq req = true)
    (hne : firstErr? (orderChecks db req) = none)
    (hstale : ∀ oi ∈ db.order_items, oi.order_id ≠ db.nextOrderId)
    (hofresh : ∀ o ∈ db.orders, o.id ≠ db.nextOrderId) :
    readOrder (createOrder db onum req).1 db.nextOrderId =
      .ok (mkOrder db.nextOrderId onum req,
        mkItemRows db.nextOrderId db.nextItemId (passedOf (orderChecks db req))) := by
  have hitems := itemsOf_createOrder db onum req hv hne hstale
  unfold itemsOf at hitems
  have hord := findOrder_createOrder db onum req hv hne hofresh
  unfold readOrder
  rw [hord, hitems]
  have hall : ∀ oi ∈ mkItemRows db.nextOrderId db.nextItemId
      (passedOf (orderChecks db req)),
      ((findProduct (createOrder db onum req).1 oi.product_id).isSome) = true := by
    intro oi hoi
    obtain ⟨x, hx, hpid⟩ := mem_mkItemRows _ oi _ _ hoi
    obtain ⟨it, up⟩ := x
    obtain ⟨hmem, hchk⟩ := passedOf_orderChecks_mem db req it up hx
    obtain ⟨p, hfp, _, _⟩ := checkItem_ok_product db it up hchk
    rw [createOrder_ok_eq db onum req hv hne]
    unfold findProduct
    dsimp only
    rw [find?_map_pred db.products
      (fun p => { p with stock_quantity :=
        p.stock_quantity - totalQty (passedOf (orderChecks db req)) p.id })
      (fun p => p.id == oi.product_id) (fun q => rfl), hpid]
    dsimp only
    unfold findProduct at hfp
    rw [hfp]
    rfl
  rw [filter_eq_self_of_true _ _ hall]

theorem effectiveUnitPrice_some_ne (it : ItemReq) (p : Product) (v : Rat)
    (h : it.unit_price = some v) (hv : v ≠ 0) : effectiveUnitPrice it p = v := by
  simp [effectiveUnitPrice, h, hv]

theorem mkItemRows_map_pidqty (oid : Nat) :
    ∀ (l : List (ItemReq × Rat)) (n : Nat),
      (mkItemRows oid n l).map (fun oi => (oi.product_id, oi.quantity)) =
        l.map (fun x => (x.1.product_id, x.1.quantity)) := by
  intro l
  induction l with
  | nil => intro n; rfl
  | cons x rest ih =>
    intro n
    obtain ⟨it, up⟩ := x
    simp only [mkItemRows, List.map, ih]

theorem mkItemRows_map_price (oid : Nat) :
    ∀ (l : List (ItemReq × Rat)) (n : Nat),
      (mkItemRows oid n l).map (fun oi => oi.unit_price) = l.map Prod.snd := by
  intro l
  induction l with
  | nil => intro n; rfl
  | cons x rest ih =>
    intro n
    obtain ⟨it, up⟩ := x
    simp only [mkItemRows, List.map, ih]

theorem itemsOf_cancelOrder (db : DB) (oid oid' : Nat) :
    itemsOf (cancelOrder db oid).1 oid' = itemsOf db oid' := by
  rw [cancelOrder_eq]
  rfl

/-- C1: for every product, after any sequence of operations (product
creation, order creation, order cancellation, stock adjustment, direct
product edit) applied from the empty database, the product's
`stock_quantity` equals its initial stock (the signed sum of its
`initial_stock` ledger rows) plus the signed sum of all its other
`inventory_transactions` ledger rows. -/
theorem C1_stock_ledger_reconciliation (ops : List Op) (pid : Nat) (p : Product)
    (h : findProduct (run ops) pid = some p) :
    p.stock_quantity =
      initialStockOf (run ops).inventory_transactions pid
        + movementSum (run ops).inventory_transactions pid := by
  obtain ⟨hsli, _, _, _⟩ := reconInv_run ops
  have hm := findProduct_mem (run ops) pid p h
  have hid := findProduct_eq_id (run ops) pid p h
  rw [← ledgerSum_eq_initial_add_movement, ← hid]
  exact hsli p hm

/-- Witness for C1 at a concrete operation sequence touching every
ledger path: final stock 9 = initial 5 + movements (−2 + 4 + 2). -/
theorem C1_stock_ledger_reconciliation_witness :
    findProduct (run exOpsC1) 1 = some
      { id := 1, name := "P", sku := "SKU-P", category_id := none, price := 10
        cost := none, stock_quantity := 9, min_stock_level := 10
        status := "active" } ∧
    (9 : Int) =
      initialStockOf (run exOpsC1).inventory_transactions 1
        + movementSum (run exOpsC1).inventory_transactions 1 :=
  ⟨by decide, C1_stock_ledger_reconciliation exOpsC1 1
    { id := 1, name := "P", sku := "SKU-P", category_id := none, price := 10
      cost := none, stock_quantity := 9, min_stock_level := 10
      status := "active" } (by decide)⟩

/-- C2 (counter-evidence for the claimed rollback guarantee): an order of
two line items for product 1, quantity 3 each, against stock 5 — total 6
exceeds the stock — is committed successfully and drives the stock to −1,
because every per-line stock check reads the pre-transaction stock. -/
theorem C2_oversell_commits :
    totalQtyReq exReqC2.items 1 = 6 ∧
    findProduct exDb5 1 = some exProd5 ∧
    exProd5.stock_quantity = 5 ∧
    (createOrder exDb5 "ORD-C2" exReqC2).2 = .ok 1 ∧
    findProduct (createOrder exDb5 "ORD-C2" exReqC2).1 1 =
      some { id := 1, name := "P", sku := "SKU-P", category_id := none, price := 10
             cost := none, stock_quantity := -1, min_stock_level := 10
             status := "active" } ∧
    (createOrder exDb5 "ORD-C2" exReqC2).1.orders.length =
      exDb5.orders.length + 1 := by
  decide

/-- C5 (counter-evidence for the claimed OrderNotFound failure):
cancelling an order id that matches no order row leaves the database
unchanged but reports success — the route never checks that the order
exists. -/
theorem C5_cancel_missing_order :
    findOrder exDbAB 999 = none ∧
    cancelOrder exDbAB 999 = (exDbAB, .ok ()) := by
  decide

/-- C10: every successful product creation appends exactly one
`initial_stock` ledger row whose quantity equals the submitted
`stock_quantity`, keyed to the new product id. -/
theorem C10_initial_stock_entry (db : DB) (req : ProductReq) (pid : Nat)
    (h : (createProduct db req).2 = .ok pid) :
    pid = db.nextProductId ∧
    (createProduct db req).1.inventory_transactions =
      db.inventory_transactions ++
        [{ id := db.nextTxnId, product_id := pid
           transaction_type := .initial_stock, quantity := req.stock_quantity
           reference_id := none, reference_type := none
           notes := "Initial stock entry" }] := by
  obtain ⟨hv, hsku, hpid⟩ := createProduct_ok_inv db req pid h
  subst hpid
  rw [createProduct_ok_eq db req hv hsku]
  exact ⟨rfl, rfl⟩

/-- Witness for C10 at a concrete creation on the empty database. -/
theorem C10_initial_stock_entry_witness :
    (createProduct emptyDB (mkProductReq "P" "SKU-P" 10 5)).2 = .ok 1 ∧
    ((1 : Nat) = emptyDB.nextProductId ∧
      (createProduct emptyDB (mkProductReq "P" "SKU-P" 10 5)).1.inventory_transactions =
        emptyDB.inventory_transactions ++
          [{ id := emptyDB.nextTxnId, product_id := 1
             transaction_type := .initial_stock
             quantity := (mkProductReq "P" "SKU-P" 10 5).stock_quantity
             reference_id := none, reference_type := none
             notes := "Initial stock entry" }]) :=
  ⟨by decide, C10_initial_stock_entry emptyDB (mkProductReq "P" "SKU-P" 10 5) 1 (by decide)⟩

/-- C6: an `adjustment_out` stock adjustment succeeds if and only if the
resulting stock is non-negative; on success the product row and the single
`adjustment_out` ledger row are written together in the same step and the
new stock is the old stock minus the unsigned quantity; on failure the
state is unchanged and the error is insufficient-stock. -/
theorem C6_adjust_out_boundary (db : DB) (pid : Nat) (q : Int) (p : Product)
    (hf : findProduct db pid = some p) :
    ((∃ s, (adjustStock db pid q .adjustment_out).2 = .ok s) ↔
      0 ≤ p.stock_quantity - |q|) ∧
    (0 ≤ p.stock_quantity - |q| →
      adjustStock db pid q .adjustment_out =
        ({ db with
            products := db.products.map (fun x =>
              if x.id = pid then
                { x with stock_quantity := p.stock_quantity - |q| }
              else x)
            inventory_transactions := db.inventory_transactions ++
              [{ id := db.nextTxnId, product_id := pid
                 transaction_type := .adjustment_out, quantity := |q|
                 reference_id := none, reference_type := none, notes := "" }]
            nextTxnId := db.nextTxnId + 1 },
          .ok (p.stock_quantity - |q|)) ∧
      findProduct (adjustStock db pid q .adjustment_out).1 pid =
        some { p with stock_quantity := p.stock_quantity - |q| }) ∧
    (p.stock_quantity - |q| < 0 →
      adjustStock db pid q .adjustment_out = (db, .error (.insufficientStock pid))) := by
  have hty : (TxnType.adjustment_out == TxnType.adjustment_in
      || TxnType.adjustment_out == TxnType.adjustment_out) = true := by decide
  have hD : p.stock_quantity +
      (if (TxnType.adjustment_out : TxnType) = TxnType.adjustment_in
        then |q| else -|q|) = p.stock_quantity - |q| := by
    simp [sub_eq_add_neg]
  have hpid := findProduct_eq_id db pid p hf
  refine ⟨Iff.intro ?_ ?_, ?_, ?_⟩
  · rintro ⟨s, hs⟩
    by_contra hneg
    have hneg1 : p.stock_quantity - |q| < 0 := by omega
    have hneg2 : p.stock_quantity +
        (if (TxnType.adjustment_out : TxnType) = TxnType.adjustment_in
          then |q| else -|q|) < 0 := by
      rw [hD]
      exact hneg1
    rw [adjustStock_insufficient_eq db pid q _ p hty hf hneg2] at hs
    exact absurd hs (by simp)
  · intro hge
    have hnn : ¬(p.stock_quantity +
        (if (TxnType.adjustment_out : TxnType) = TxnType.adjustment_in
          then |q| else -|q|) < 0) := by
      rw [hD]
      omega
    refine ⟨p.stock_quantity - |q|, ?_⟩
    rw [adjustStock_ok_eq db pid q _ p hty hf hnn]
    dsimp only
    rw [hD]
  · intro hge
    have hnn : ¬(p.stock_quantity +
        (if (TxnType.adjustment_out : TxnType) = TxnType.adjustment_in
          then |q| else -|q|) < 0) := by
      rw [hD]
      omega
    have key := adjustStock_ok_eq db pid q .adjustment_out p hty hf hnn
    simp only [hD] at key
    refine ⟨key, ?_⟩
    rw [key]
    unfold findProduct
    dsimp only
    rw [find?_map_pred db.products
      (fun x => if x.id = pid then
        { x with stock_quantity := p.stock_quantity - |q| } else x)
      (fun x => x.id == pid) ?_]
    · unfold findProduct at hf
      rw [hf]
      dsimp only [Option.map]
      rw [if_pos hpid]
    · intro x
      by_cases hx : x.id = pid
      · simp [hx]
      · simp [hx]
  · intro hlt
    have hneg2 : p.stock_quantity +
        (if (TxnType.adjustment_out : TxnType) = TxnType.adjustment_in
          then |q| else -|q|) < 0 := by
      rw [hD]
      exact hlt
    exact adjustStock_insufficient_eq db pid q _ p hty hf hneg2

/-- Witness for C6: on stock 5, adjusting out 1000000 fails with
insufficient stock and leaves the state unchanged, while adjusting out
exactly 5 succeeds and leaves stock at exactly 0. -/
theorem C6_adjust_out_boundary_witness :
    findProduct exDb5 1 = some exProd5 ∧
    adjustStock exDb5 1 1000000 .adjustment_out =
      (exDb5, .error (.insufficientStock 1)) ∧
    (adjustStock exDb5 1 5 .adjustment_out).2 = .ok 0 ∧
    findProduct (adjustStock exDb5 1 5 .adjustment_out).1 1 =
      some { id := 1, name := "P", sku := "SKU-P", category_id := none
             price := 10, cost := none, stock_quantity := 0
             min_stock_level := 10, status := "active" } := by
  have hbig := (C6_adjust_out_boundary exDb5 1 1000000 exProd5 (by decide)).2.2
    (by decide)
  have hok := (C6_adjust_out_boundary exDb5 1 5 exProd5 (by decide)).2.1
    (by decide)
  refine ⟨by decide, hbig, ?_, ?_⟩
  · rw [hok.1]
    decide
  · rw [hok.2]
    decide

/-- C4: cancelling an order adds each line item's quantity back to its
product's stock, appends one `return` ledger row per line item (positive
quantity when the stored line quantities are positive, referencing the
cancellation), and marks the order `cancelled`; cancelling the same order
a second time performs the whole restoration again (no status guard), so
stock is double-restored. -/
theorem C4_cancel_order_effects (db : DB) (oid : Nat) :
    (∀ pid p, findProduct db pid = some p →
      findProduct (cancelOrder db oid).1 pid =
        some { p with stock_quantity :=
          p.stock_quantity + totalQtyItems (itemsOf db oid) pid }) ∧
    (cancelOrder db oid).1.inventory_transactions =
      db.inventory_transactions ++ mkReturnRows oid db.nextTxnId (itemsOf db oid) ∧
    (mkReturnRows oid db.nextTxnId (itemsOf db oid)).length =
      (itemsOf db oid).length ∧
    (∀ t ∈ mkReturnRows oid db.nextTxnId (itemsOf db oid),
      t.transaction_type = .ret ∧ t.reference_id = some oid ∧
        t.reference_type = some "order_cancellation") ∧
    ((∀ oi ∈ db.order_items, 0 < oi.quantity) →
      ∀ t ∈ mkReturnRows oid db.nextTxnId (itemsOf db oid), 0 < t.quantity) ∧
    (∀ o, findOrder db oid = some o →
      findOrder (cancelOrder db oid).1 oid = some { o with status := "cancelled" }) ∧
    (∀ pid p, findProduct db pid = some p →
      findProduct (cancelOrder (cancelOrder db oid).1 oid).1 pid =
        some { p with stock_quantity :=
          p.stock_quantity + 2 * totalQtyItems (itemsOf db oid) pid }) := by
  have hrestore : ∀ (dbX : DB) (pid : Nat) (p : Product),
      findProduct dbX pid = some p →
      findProduct (cancelOrder dbX oid).1 pid =
        some { p with stock_quantity :=
          p.stock_quantity + totalQtyItems (itemsOf dbX oid) pid } := by
    intro dbX pid p hf
    have hpid := findProduct_eq_id dbX pid p hf
    rw [cancelOrder_eq]
    unfold findProduct
    dsimp only
    rw [find?_map_pred dbX.products
      (fun x => { x with stock_quantity :=
        x.stock_quantity + totalQtyItems (itemsOf dbX oid) x.id })
      (fun x => x.id == pid) (fun x => rfl)]
    unfold findProduct at hf
    rw [hf]
    dsimp only [Option.map]
    rw [hpid]
  refine ⟨hrestore db, ?_, mkReturnRows_length oid _ _, ?_, ?_, ?_, ?_⟩
  · rw [cancelOrder_eq]
  · intro t ht
    obtain ⟨h1, h2, h3, _⟩ := mkReturnRows_props oid _ _ t ht
    exact ⟨h1, h2, h3⟩
  · intro hq t ht
    obtain ⟨_, _, _, oi, hoi, h4⟩ := mkReturnRows_props oid _ _ t ht
    rw [h4]
    exact hq oi (List.mem_of_mem_filter hoi)
  · intro o ho
    have hoid := findOrder_eq_id db oid o ho
    rw [cancelOrder_eq]
    unfold findOrder
    dsimp only
    rw [find?_map_pred db.orders
      (fun x => if x.id = oid then { x with status := "cancelled" } else x)
      (fun x => x.id == oid) ?_]
    · unfold findOrder at ho
      rw [ho]
      dsimp only [Option.map]
      rw [if_pos hoid]
    · intro x
      by_cases hx : x.id = oid
      · simp [hx]
      · simp [hx]
  · intro pid p hf
    have h1 := hrestore db pid p hf
    have h2 := hrestore (cancelOrder db oid).1 pid _ h1
    rw [itemsOf_cancelOrder] at h2
    rw [h2]
    have harith : p.stock_quantity + totalQtyItems (itemsOf db oid) pid
        + totalQtyItems (itemsOf db oid) pid =
        p.stock_quantity + 2 * totalQtyItems (itemsOf db oid) pid := by
      ring
    exact congrArg (fun s => some { p with stock_quantity := s }) harith

/-- Witness for C4 at a database with one order (id 1: product 1, qty 2,
product stock 8 after the sale): one cancel restores stock to 10, a second
cancel double-restores to 12. -/
theorem C4_cancel_order_effects_witness :
    findProduct exDbOrder 1 = some
      { id := 1, name := "A", sku := "SKU-A", category_id := none, price := 10
        cost := none, stock_quantity := 8, min_stock_level := 10
        status := "active" } ∧
    findProduct (cancelOrder exDbOrder 1).1 1 = some
      { id := 1, name := "A", sku := "SKU-A", category_id := none, price := 10
        cost := none, stock_quantity := 10, min_stock_level := 10
        status := "active" } ∧
    findProduct (cancelOrder (cancelOrder exDbOrder 1).1 1).1 1 = some
      { id := 1, name := "A", sku := "SKU-A", category_id := none, price := 10
        cost := none, stock_quantity := 12, min_stock_level := 10
        status := "active" } ∧
    (∀ o, findOrder exDbOrder 1 = some o →
      findOrder (cancelOrder exDbOrder 1).1 1 = some { o with status := "cancelled" }) := by
  have h4 := C4_cancel_order_effects exDbOrder 1
  refine ⟨by decide, ?_, ?_, h4.2.2.2.2.2.1⟩
  · rw [h4.1 1 _ (by decide : findProduct exDbOrder 1 = some
      { id := 1, name := "A", sku := "SKU-A", category_id := none, price := 10
        cost := none, stock_quantity := 8, min_stock_level := 10
        status := "active" })]
    decide
  · rw [h4.2.2.2.2.2.2 1 _ (by decide : findProduct exDbOrder 1 = some
      { id := 1, name := "A", sku := "SKU-A", category_id := none, price := 10
        cost := none, stock_quantity := 8, min_stock_level := 10
        status := "active" })]
    decide

theorem passedOf_orderChecks_noErr (db : DB) (req : OrderReq)
    (h : firstErr? (orderChecks db req) = none) :
    passedOf (orderChecks db req) =
      req.items.map (fun it => (it, okValue (checkItem db it))) :=
  passedOf_of_noErr (checkItem db) req.items h

theorem totalQty_orderChecks (db : DB) (req : OrderReq)
    (h : firstErr? (orderChecks db req) = none) (pid : Nat) :
    totalQty (passedOf (orderChecks db req)) pid = totalQtyReq req.items pid :=
  totalQty_passedOf_noErr (checkItem db) req.items h pid

theorem passedOf_orderChecks_length (db : DB) (req : OrderReq)
    (h : firstErr? (orderChecks db req) = none) :
    (passedOf (orderChecks db req)).length = req.items.length := by
  rw [passedOf_orderChecks_noErr db req h, List.length_map]

/-- C3: a successful create-order performs exactly one order insert (with
the submitted `total_amount` stored on the order), one `order_items`
insert per request item, one relative stock decrement per item (each
product's stock drops by the total quantity requested for it), and one
`sale` ledger append per item (negative quantity, referencing the new
order). -/
theorem C3_create_order_effects (db : DB) (onum : String) (req : OrderReq)
    (oid : Nat) (h : (createOrder db onum req).2 = .ok oid) :
    oid = db.nextOrderId ∧
    (createOrder db onum req).1.orders =
      db.orders ++ [mkOrder db.nextOrderId onum req] ∧
    (mkOrder db.nextOrderId onum req).total_amount = req.total_amount ∧
    (createOrder db onum req).1.order_items.length =
      db.order_items.length + req.items.length ∧
    (createOrder db onum req).1.products = db.products.map (fun p =>
      { p with stock_quantity :=
          p.stock_quantity - totalQtyReq req.items p.id }) ∧
    (createOrder db onum req).1.inventory_transactions =
      db.inventory_transactions ++
        mkSaleRows db.nextOrderId onum db.nextTxnId (passedOf (orderChecks db req)) ∧
    (mkSaleRows db.nextOrderId onum db.nextTxnId (passedOf (orderChecks db req))).length =
      req.items.length ∧
    ∀ t ∈ mkSaleRows db.nextOrderId onum db.nextTxnId (passedOf (orderChecks db req)),
      t.transaction_type = .sale ∧ t.quantity < 0 ∧ t.reference_id = some db.nextOrderId := by
  obtain ⟨hv, hne, hoid⟩ := createOrder_ok_inv db onum req oid h
  subst hoid
  refine ⟨rfl, ?_, rfl, ?_, ?_, ?_, ?_, ?_⟩
  · rw [createOrder_ok_eq db onum req hv hne]
  · rw [createOrder_ok_eq db onum req hv hne]
    dsimp only
    rw [List.length_append, mkItemRows_length, passedOf_orderChecks_length db req hne]
  · rw [createOrder_ok_eq db onum req hv hne]
    dsimp only
    refine List.map_congr_left fun p _ => ?_
    rw [totalQty_orderChecks db req hne]
  · rw [createOrder_ok_eq db onum req hv hne]
  · rw [mkSaleRows_length, passedOf_orderChecks_length db req hne]
  · refine mkSaleRows_props _ onum _ _ ?_
    intro x hx
    obtain ⟨it, up⟩ := x
    obtain ⟨hmem, _⟩ := passedOf_orderChecks_mem db req it up hx
    exact validOrderReq_items_qty req hv it hmem

/-- Witness for C3 at the concrete scenario of the claim: products A
(stock 10) and B (stock 5), order [(A, 2, 10.00), (B, 1, 5.00)] with
total 25.00: A drops to 8, B to 4, two item rows, two sale rows, and the
stored order's total is 25. -/
theorem C3_create_order_effects_witness :
    (createOrder exDbAB "ORD-C3" exReqC3).2 = Except.ok 1 ∧
    (createOrder exDbAB "ORD-C3" exReqC3).1.products =
      exDbAB.products.map (fun p =>
        { p with stock_quantity :=
            p.stock_quantity - totalQtyReq exReqC3.items p.id }) ∧
    (createOrder exDbAB "ORD-C3" exReqC3).1.order_items.length =
      exDbAB.order_items.length + exReqC3.items.length ∧
    (mkOrder exDbAB.nextOrderId "ORD-C3" exReqC3).total_amount =
      exReqC3.total_amount ∧
    (mkSaleRows exDbAB.nextOrderId "ORD-C3" exDbAB.nextTxnId
      (passedOf (orderChecks exDbAB exReqC3))).length = exReqC3.items.length := by
  have h3 := C3_create_order_effects exDbAB "ORD-C3" exReqC3 1 (by decide)
  exact ⟨by decide, h3.2.2.2.2.1, h3.2.2.2.1, h3.2.2.1, h3.2.2.2.2.2.2.1⟩

/-- C7: a successful direct product update that changes `stock_quantity`
writes the new (validated, non-negative) stock and exactly one ledger row
— `adjustment_in` for a positive delta, `adjustment_out` for a negative
one, with the unsigned delta as quantity — in the same step; an update
that does not change the stock writes no ledger row. -/
theorem C7_product_edit_ledger (db : DB) (pid : Nat) (u : ProductUpdate)
    (current : Product) (hf : findProduct db pid = some current)
    (h : (updateProduct db pid u).2 = .ok ()) :
    (∀ s, u.stock_quantity = some s → s ≠ current.stock_quantity →
      0 ≤ s ∧
      (updateProduct db pid u).1.inventory_transactions =
        db.inventory_transactions ++
          [{ id := db.nextTxnId, product_id := pid
             transaction_type :=
               if 0 < s - current.stock_quantity then .adjustment_in
               else .adjustment_out
             quantity := |s - current.stock_quantity|, reference_id := none
             reference_type := none, notes := "Manual stock adjustment" }] ∧
      findProduct (updateProduct db pid u).1 pid = some (applyUpdates current u)) ∧
    (∀ s, u.stock_quantity = some s → s = current.stock_quantity →
      (updateProduct db pid u).1.inventory_transactions =
        db.inventory_transactions) ∧
    (u.stock_quantity = none →
      (updateProduct db pid u).1.inventory_transactions =
        db.inventory_transactions) := by
  obtain ⟨hv, hu, _⟩ := updateProduct_ok_inv db pid u h
  have hpid := findProduct_eq_id db pid current hf
  have hfind : ∀ dbP : List Product,
      dbP = db.products.map (fun p => if p.id = pid then applyUpdates p u else p) →
      dbP.find? (fun p => p.id == pid) = some (applyUpdates current u) := by
    intro dbP hdbP
    subst hdbP
    rw [find?_map_pred db.products
      (fun p => if p.id = pid then applyUpdates p u else p)
      (fun p => p.id == pid) ?_]
    · unfold findProduct at hf
      rw [hf]
      dsimp only [Option.map]
      rw [if_pos hpid]
    · intro x
      by_cases hx : x.id = pid
      · simp [hx, applyUpdates_id]
      · simp [hx]
  refine ⟨?_, ?_, ?_⟩
  · intro s hs hne
    refine ⟨validProductUpdate_stock_nonneg u s hv hs, ?_, ?_⟩
    · rw [updateProduct_ok_stock_eq db pid u current s hv hf hu hs hne]
    · rw [updateProduct_ok_stock_eq db pid u current s hv hf hu hs hne]
      unfold findProduct
      dsimp only
      exact hfind _ rfl
  · intro s hs heq
    rw [updateProduct_ok_same_eq db pid u current s hv hf hu hs heq]
  · intro hs
    rw [updateProduct_ok_none_eq db pid u current hv hf hu hs]

/-- Witness for C7: setting stock 5 → 2 on product 1 logs one
`adjustment_out` row with quantity 3 and stores stock 2. -/
theorem C7_product_edit_ledger_witness :
    (updateProduct exDb5 1 (stockOnlyUpdate 2)).2 = .ok () ∧
    ((0 : Int) ≤ 2 ∧
      (updateProduct exDb5 1 (stockOnlyUpdate 2)).1.inventory_transactions =
        exDb5.inventory_transactions ++
          [{ id := exDb5.nextTxnId, product_id := 1
             transaction_type :=
               if 0 < (2 : Int) - exProd5.stock_quantity then .adjustment_in
               else .adjustment_out
             quantity := |(2 : Int) - exProd5.stock_quantity|, reference_id := none
             reference_type := none, notes := "Manual stock adjustment" }] ∧
      findProduct (updateProduct exDb5 1 (stockOnlyUpdate 2)).1 1 =
        some (applyUpdates exProd5 (stockOnlyUpdate 2))) :=
  ⟨by decide,
    (C7_product_edit_ledger exDb5 1 (stockOnlyUpdate 2) exProd5
      (by decide) (by decide)).1 2 (by decide) (by decide)⟩

section

attribute [local semireducible] Rat.mul Rat.add Rat.sub

/-- C8 counterexample: the server stores a submitted `total_amount` of
999 against a single line item whose `total_price` is 10 (tax 0,
discount 0), so the claimed invariant
`Σ total_price + tax − discount = total_amount` fails at creation time:
the handler never validates the submitted totals. -/
theorem C8_counterexample :
    (createOrder exDb5 "ORD-C8" exReqC8).2 = .ok 1 ∧
    findOrder (createOrder exDb5 "ORD-C8" exReqC8).1 1 =
      some (mkOrder 1 "ORD-C8" exReqC8) ∧
    sumTotalPrice (itemsOf (createOrder exDb5 "ORD-C8" exReqC8).1 1) = 10 ∧
    (mkOrder 1 "ORD-C8" exReqC8).tax_amount = 0 ∧
    (mkOrder 1 "ORD-C8" exReqC8).discount_amount = 0 ∧
    (mkOrder 1 "ORD-C8" exReqC8).total_amount = 999 ∧
    ¬(sumTotalPrice (itemsOf (createOrder exDb5 "ORD-C8" exReqC8).1 1)
        + (mkOrder 1 "ORD-C8" exReqC8).tax_amount
        - (mkOrder 1 "ORD-C8" exReqC8).discount_amount
      = (mkOrder 1 "ORD-C8" exReqC8).total_amount) := by
  decide

/-- C8 amended: the stored order's `total_amount` (and tax and discount)
are exactly the submitted values, unvalidated; the invariant
`Σ line total_price + tax − discount = total_amount` holds at creation
exactly when the submitted request itself satisfies it. -/
theorem C8_total_amount_stored (db : DB) (onum : String) (req : OrderReq)
    (oid : Nat) (h : (createOrder db onum req).2 = .ok oid)
    (hstale : ∀ oi ∈ db.order_items, oi.order_id ≠ db.nextOrderId)
    (hofresh : ∀ o ∈ db.orders, o.id ≠ db.nextOrderId) :
    findOrder (createOrder db onum req).1 oid =
      some (mkOrder db.nextOrderId onum req) ∧
    (mkOrder db.nextOrderId onum req).total_amount = req.total_amount ∧
    (mkOrder db.nextOrderId onum req).tax_amount = req.tax_amount ∧
    (mkOrder db.nextOrderId onum req).discount_amount = req.discount_amount ∧
    (sumTotalPrice (itemsOf (createOrder db onum req).1 oid)
        + (mkOrder db.nextOrderId onum req).tax_amount
        - (mkOrder db.nextOrderId onum req).discount_amount
      = (mkOrder db.nextOrderId onum req).total_amount ↔
      sumLineTotals (passedOf (orderChecks db req))
        + req.tax_amount - req.discount_amount = req.total_amount) := by
  obtain ⟨hv, hne, hoid⟩ := createOrder_ok_inv db onum req oid h
  subst hoid
  refine ⟨findOrder_createOrder db onum req hv hne hofresh, rfl, rfl, rfl, ?_⟩
  rw [itemsOf_createOrder db onum req hv hne hstale, sumTotalPrice_mkItemRows]
  exact Iff.rfl

/-- Witness for the amended C8 at a request whose submitted totals are
consistent (line totals 25, tax 0, discount 0, total 25). -/
theorem C8_total_amount_stored_witness :
    (createOrder exDbAB "ORD-C3b" exReqC3).2 = .ok 1 ∧
    findOrder (createOrder exDbAB "ORD-C3b" exReqC3).1 1 =
      some (mkOrder exDbAB.nextOrderId "ORD-C3b" exReqC3) ∧
    sumTotalPrice (itemsOf (createOrder exDbAB "ORD-C3b" exReqC3).1 1)
        + (mkOrder exDbAB.nextOrderId "ORD-C3b" exReqC3).tax_amount
        - (mkOrder exDbAB.nextOrderId "ORD-C3b" exReqC3).discount_amount
      = (mkOrder exDbAB.nextOrderId "ORD-C3b" exReqC3).total_amount := by
  have h8 := C8_total_amount_stored exDbAB "ORD-C3b" exReqC3 1 (by decide)
    (by decide) (by decide)
  exact ⟨by decide, h8.1, h8.2.2.2.2.mpr (by decide)⟩

theorem mkItemRows_map_some_price (oid : Nat) :
    ∀ (l : List (ItemReq × Rat)) (n : Nat),
      (mkItemRows oid n l).map (fun oi => some oi.unit_price) =
        l.map (fun x => some x.2) := by
  intro l
  induction l with
  | nil => intro n; rfl
  | cons x rest ih =>
    intro n
    obtain ⟨it, up⟩ := x
    simp only [mkItemRows, List.map, ih]

/-- C9 counterexample: an order submitting an explicit `unit_price` of 0
for a product priced 7 stores and reads back a unit price of 7, not the
submitted 0 — the handler evaluates `item.unit_price || product.price`
and 0 is falsy in JS. -/
theorem C9_counterexample :
    (createOrder exDb7 "ORD-C9" exReqC9).2 = .ok 1 ∧
    exReqC9.items.map (fun it => it.unit_price) = [some 0] ∧
    readOrder (createOrder exDb7 "ORD-C9" exReqC9).1 1 =
      .ok (mkOrder 1 "ORD-C9" exReqC9,
        [{ id := 1, order_id := 1, product_id := 1, quantity := 1
           unit_price := 7, total_price := 7 }]) ∧
    (7 : Rat) ≠ 0 := by
  decide

/-- C9 amended: reading back a successfully created order reproduces the
submitted quantities exactly; it reproduces the submitted unit prices
whenever every submitted `unit_price` is present and nonzero (a zero or
absent price falls back to the product's price at creation time); and the
stored items are snapshots — no later direct product edit (including
price changes) affects the read-back result. -/
theorem C9_readback_snapshot (db : DB) (onum : String) (req : OrderReq)
    (oid : Nat) (h : (createOrder db onum req).2 = .ok oid)
    (hstale : ∀ oi ∈ db.order_items, oi.order_id ≠ db.nextOrderId)
    (hofresh : ∀ o ∈ db.orders, o.id ≠ db.nextOrderId) :
    readOrder (createOrder db onum req).1 oid =
      .ok (mkOrder db.nextOrderId onum req,
        mkItemRows db.nextOrderId db.nextItemId (passedOf (orderChecks db req))) ∧
    (mkItemRows db.nextOrderId db.nextItemId (passedOf (orderChecks db req))).map
        (fun oi => (oi.product_id, oi.quantity)) =
      req.items.map (fun it => (it.product_id, it.quantity)) ∧
    ((∀ it ∈ req.items, ∃ v, it.unit_price = some v ∧ v ≠ 0) →
      (mkItemRows db.nextOrderId db.nextItemId (passedOf (orderChecks db req))).map
          (fun oi => some oi.unit_price) =
        req.items.map (fun it => it.unit_price)) ∧
    (∀ (pid' : Nat) (u' : ProductUpdate),
      readOrder ((updateProduct (createOrder db onum req).1 pid' u').1) oid =
        readOrder (createOrder db onum req).1 oid) := by
  obtain ⟨hv, hne, hoid⟩ := createOrder_ok_inv db onum req oid h
  subst hoid
  refine ⟨readOrder_createOrder db onum req hv hne hstale hofresh, ?_, ?_, ?_⟩
  · rw [passedOf_orderChecks_noErr db req hne, mkItemRows_map_pidqty, List.map_map]
    rfl
  · intro hp
    rw [passedOf_orderChecks_noErr db req hne, mkItemRows_map_some_price,
      List.map_map]
    refine List.map_congr_left ?_
    intro it hit
    obtain ⟨v, hv0, hvne⟩ := hp it hit
    obtain ⟨u, hu⟩ := noErr_all_ok (checkItem db) req.items hne it hit
    obtain ⟨p, hfp, _, hup⟩ := checkItem_ok_product db it u hu
    dsimp only [Function.comp]
    rw [hu, hv0]
    simp only [okValue]
    rw [hup, effectiveUnitPrice_some_ne it p v hv0 hvne]
  · intro pid' u'
    exact readOrder_updateProduct (createOrder db onum req).1 pid' u' db.nextOrderId

/-- Witness for the amended C9: an order with an explicit nonzero price
(9, qty 2) reads back exactly the submitted quantity and price. -/
theorem C9_readback_snapshot_witness :
    (createOrder exDb7 "ORD-C9b" exReqC9b).2 = .ok 1 ∧
    (mkItemRows exDb7.nextOrderId exDb7.nextItemId
        (passedOf (orderChecks exDb7 exReqC9b))).map
        (fun oi => (oi.product_id, oi.quantity)) =
      exReqC9b.items.map (fun it => (it.product_id, it.quantity)) ∧
    (mkItemRows exDb7.nextOrderId exDb7.nextItemId
        (passedOf (orderChecks exDb7 exReqC9b))).map
        (fun oi => some oi.unit_price) =
      exReqC9b.items.map (fun it => it.unit_price) := by
  have h9 := C9_readback_snapshot exDb7 "ORD-C9b" exReqC9b 1 (by decide)
    (by decide) (by decide)
  exact ⟨by decide, h9.2.1, h9.2.2.1 (by decide)⟩

end
